import Mathlib

/-!
The namespace bootstrap of libcontainer, nsexec.c.

A shallow embedding of
`vendor/github.com/opencontainers/runc/libcontainer/nsenter/nsexec.c`.

Conventions of the embedding.

* Target: LP64 Linux, little-endian. `size_t` and pointers are 64 bits wide and
  wrap modulo `2 ^ 64`; `int` and `uint32_t` are 32 bits wide.
* Memory: the payload buffer `data` is a list of bytes; a pointer into it is an
  offset from `data`. A load outside the bytes the buffer holds is undefined
  behaviour in C and is the outcome `undef` here.
* Environment: every library or system call whose answer is not determined by
  the program (read, malloc, open, setns, clone, write, ...) is a `Call`
  answered by a `Kernel`, an arbitrary function of the history of earlier
  calls. Every call and its answer is appended to the `trace` of the `World`.
* `bail` prints a diagnostic and leaves through `exit(__COUNTER__ + 1)`; the
  thirty expansions of the macro are numbered 1..30 in source order.
* Loops that the source does not bound (the attribute walk) take a fuel
  argument and report `outOfFuel` when it is used up.
-/

namespace Nsexec

/-! ## Constants -/

def SYNC_VAL : Nat := 0x42
def JUMP_VAL : Nat := 0x43

def INIT_MSG : Nat := 62000
def CLONE_FLAGS_ATTR : Nat := 27281
def CONSOLE_PATH_ATTR : Nat := 27282
def NS_PATHS_ATTR : Nat := 27283
def UIDMAP_ATTR : Nat := 27284
def GIDMAP_ATTR : Nat := 27285
def SETGROUP_ATTR : Nat := 27286

/-- From linux/netlink.h: `NLMSG_HDRLEN`, the aligned size of `struct nlmsghdr`. -/
def NLMSG_HDRLEN : Nat := 16
/-- From linux/netlink.h: the message type of an error message. -/
def NLMSG_ERROR : Nat := 2
/-- From linux/netlink.h: `NLA_ALIGNTO`. -/
def NLA_ALIGNTO : Nat := 4
/-- From linux/netlink.h: `NLA_HDRLEN`, the aligned size of `struct nlattr`. -/
def NLA_HDRLEN : Nat := 4

def EINVAL : Nat := 22
def ENOENT : Nat := 2
def ERANGE : Nat := 34
def O_RDONLY : Nat := 0
def O_RDWR : Nat := 2
def CLONE_PARENT : Nat := 0x8000
def SIGCHLD : Nat := 17
def SIGKILL : Nat := 9
def TIOCSCTTY : Nat := 0x540E
def STDIN_FILENO : Int := 0
def STDOUT_FILENO : Int := 1
def STDERR_FILENO : Int := 2

/-- The modulus of `size_t` and of pointer arithmetic. -/
def SIZE_MOD : Nat := 2 ^ 64
/-- The modulus of `unsigned int`. -/
def UINT_MOD : Nat := 2 ^ 32

/-! ## Environment -/

/-- The three per-process files under /proc that the parent writes. -/
inductive ProcFile where
  | setgroups
  | uid_map
  | gid_map
  deriving DecidableEq, Repr

/-- A path handed to open(2): a C string taken from the payload, or
`/proc/<pid>/<file>` as formatted by `write_file`. -/
inductive Path where
  | bytes (s : List Nat)
  | proc (pid : Int) (file : ProcFile)
  deriving DecidableEq, Repr

/-- The calls whose result is decided by the environment. -/
inductive Call where
  | read (fd : Int) (count : Nat)
  | malloc (size : Nat)
  | realloc (size : Nat)
  | open_ (path : Path) (flags : Nat)
  | setns (fd : Int) (nstype : Nat)
  | close (fd : Int)
  | clone (flags : Nat)
  | unshare (flags : Nat)
  | write (fd : Int) (data : List Nat)
  | kill (pid : Int) (sig : Nat)
  | pipe
  | setsid
  | setuid (uid : Nat)
  | setgid (gid : Nat)
  | setgroups (size : Nat)
  | ioctl (fd : Int) (request : Nat)
  | dup3 (oldfd : Int) (newfd : Int) (flags : Nat)
  deriving DecidableEq, Repr

/-- The answer to a call: the return value (for malloc and realloc, 0 is NULL),
the value errno takes when the call fails, and the bytes the call stores
through its buffer argument (read: the bytes read; pipe: the two descriptors). -/
structure SysRet where
  ret : Int
  errno : Nat
  data : List Nat
  deriving DecidableEq, Repr

/-- One call together with its answer. -/
structure Event where
  call : Call
  ans : SysRet
  deriving DecidableEq, Repr

/-- The environment: answers each call, given all earlier calls and answers. -/
abbrev Kernel := List Event → Call → SysRet

/-- One visited attribute frame: where it starts, and its two header fields. -/
structure Frame where
  offset : Nat
  nla_len : Nat
  nla_type : Nat
  deriving DecidableEq, Repr

/-- The state of the process as far as the embedding follows it: the calls made
so far, errno, and (ghost) the attribute frames the walk has dispatched on. -/
structure World where
  trace : List Event
  errno : Nat
  visited : List Frame
  deriving DecidableEq, Repr

/-- How a piece of the program ends. -/
inductive Outcome (α : Type) where
  | ok (a : α)
  | exit (code : Nat) (msg : String)
  | undef
  | outOfFuel
  deriving DecidableEq, Repr

/-- Perform one call: ask the kernel, record the event, set errno on failure. -/
def sys (k : Kernel) (w : World) (c : Call) : SysRet × World :=
  let r := k w.trace c
  (r, { w with trace := w.trace ++ [⟨c, r⟩],
               errno := if r.ret < 0 then r.errno else w.errno })

/-- The `bail` macro: diagnostic on stderr, then `exit(code)`. -/
def bail {α : Type} (code : Nat) (msg : String) (w : World) : Outcome α × World :=
  (.exit code msg, w)

/-! ## Integer conversions -/

/-- Conversion of a signed value to `size_t`: reduction modulo 2^64. -/
def to_size_t (i : Int) : Nat := (i % 18446744073709551616).toNat

/-- Conversion of an unsigned value to `int` (two's complement, 32 bits):
reduction modulo 2^32, the upper half read as negative. -/
def to_int (n : Nat) : Int :=
  if n % 4294967296 < 2147483648 then ((n % 4294967296 : Nat) : Int)
  else ((n % 4294967296 : Nat) : Int) - 4294967296

/-- From linux/netlink.h: `NLA_ALIGN(len)`, that is
`((len) + NLA_ALIGNTO - 1) & ~(NLA_ALIGNTO - 1)`, evaluated in `size_t`. -/
def NLA_ALIGN (len : Nat) : Nat :=
  ((len + NLA_ALIGNTO - 1) % SIZE_MOD) &&& (SIZE_MOD - 1 - (NLA_ALIGNTO - 1))

/-! ## Loads from memory -/

/-- A 16-bit little-endian load (`__u16`); `none` when it leaves the buffer.
Each cell of the buffer is one byte, so it is read modulo 256. -/
def load16 (m : List Nat) (p : Nat) : Option Nat :=
  if p + 2 ≤ m.length then some (m.getD p 0 % 256 + 256 * (m.getD (p + 1) 0 % 256))
  else none

/-- The source's `readint32`: `*(uint32_t *) buf`. -/
def readint32 (m : List Nat) (p : Nat) : Option Nat :=
  if p + 4 ≤ m.length then
    some (m.getD p 0 + 256 * m.getD (p + 1) 0 + 65536 * m.getD (p + 2) 0
          + 16777216 * m.getD (p + 3) 0)
  else none

/-- The source's `readint8`: `*(uint8_t *) buf`. -/
def readint8 (m : List Nat) (p : Nat) : Option Nat :=
  if p + 1 ≤ m.length then some (m.getD p 0) else none

/-- Number of bytes before the first NUL; `none` when there is no NUL. -/
def scanNul : List Nat → Option Nat
  | [] => none
  | b :: bs => if b = 0 then some 0 else (scanNul bs).map (· + 1)

/-- The libc `strlen` on the buffer; `none` when the string is not terminated
inside it. -/
def strlen (m : List Nat) (p : Nat) : Option Nat := scanNul (m.drop p)

/-- The C string starting at `p`, without its terminator. -/
def cstr (m : List Nat) (p : Nat) : Option (List Nat) :=
  (strlen m p).map (fun n => (m.drop p).take n)

/-- The libc `strspn(s, ",")`: the number of leading commas. -/
def strspn_comma : List Nat → Nat
  | [] => 0
  | b :: bs => if b = 44 then strspn_comma bs + 1 else 0

/-- The libc `strcspn(s, ",")`: the number of leading bytes that are neither a
comma nor the terminator. -/
def strcspn_comma : List Nat → Nat
  | [] => 0
  | b :: bs => if b = 44 ∨ b = 0 then 0 else strcspn_comma bs + 1

/-- The libc `strtok_r(s, ",", &saveptr)` started at offset `s` (for a NULL
first argument, `s` is the saved pointer). Result: the buffer afterwards, the
token returned (`none` for NULL) and the new saved pointer; `none` when the scan
leaves the buffer. -/
def strtok_r (m : List Nat) (s : Nat) : Option (List Nat × Option Nat × Nat) :=
  let s1 := s + strspn_comma (m.drop s)
  match m.get? s1 with
  | none => none
  | some b =>
    if b = 0 then some (m, none, s1)
    else
      let e := s1 + strcspn_comma (m.drop s1)
      match m.get? e with
      | none => none
      | some c =>
        if c = 0 then some (m, some s1, e)
        else some (m.set e 0, some s1, e + 1)

/-- The six attribute types the switch of `nl_parse` has a case for. -/
def recognized_attrs : List Nat :=
  [CLONE_FLAGS_ATTR, CONSOLE_PATH_ATTR, NS_PATHS_ATTR, UIDMAP_ATTR, GIDMAP_ATTR,
   SETGROUP_ATTR]

/-! ## The configuration record -/

/-- The source's `struct nlconfig_t`. `data` is the payload buffer the record
owns; `uidmap` and `gidmap` point into it (`none` is NULL). -/
structure nlconfig_t where
  data : List Nat
  cloneflags : Nat
  uidmap : Option Nat
  uidmap_len : Int
  gidmap : Option Nat
  gidmap_len : Int
  is_setgroup : Nat
  consolefd : Int
  deriving DecidableEq, Repr

/-- The record after `struct nlconfig_t config = {0}`. -/
def nlconfig_zero : nlconfig_t :=
  { data := [], cloneflags := 0, uidmap := none, uidmap_len := 0,
    gidmap := none, gidmap_len := 0, is_setgroup := 0, consolefd := 0 }

/-! ## nl_parse -/

/-- The do-while loop of the NS_PATHS_ATTR case: open every path, in the order
of the tokens. `ents` holds `fds[i]` and `paths[i]` for the entries stored so
far. -/
def ns_open_loop (k : Kernel) : Nat → World → List Nat → Nat → Nat →
    List (Int × Nat) → Outcome (List Nat × List (Int × Nat)) × World
  | 0, w, _, _, _, _ => (.outOfFuel, w)
  | fuel + 1, w, m, ns, saveptr, ents =>
    let num := ents.length + 1
    let (r1, w) := sys k w (.realloc (num * 4))
    let (r2, w) := sys k w (.realloc (num * 8))
    match cstr m ns with
    | none => (.undef, w)
    | some path =>
      let (r, w) := sys k w (.open_ (.bytes path) O_RDONLY)
      if r.ret < 0 then bail 16 "failed to open %s" w
      else if r1.ret = 0 ∨ r2.ret = 0 then (.undef, w)
      else
        let ents := ents ++ [(r.ret, ns)]
        match strtok_r m saveptr with
        | none => (.undef, w)
        | some (m, none, _) => (.ok (m, ents), w)
        | some (m, some ns, saveptr) => ns_open_loop k fuel w m ns saveptr ents

/-- The for loop of the NS_PATHS_ATTR case: setns to every opened descriptor,
in order, closing each one after its join. -/
def ns_setns_loop (k : Kernel) : World → List (Int × Nat) → Outcome Unit × World
  | w, [] => (.ok (), w)
  | w, (fd, _) :: ents =>
    let (r, w) := sys k w (.setns fd 0)
    if r.ret < 0 then bail 17 "failed to setns to %s" w
    else
      let (_, w) := sys k w (.close fd)
      ns_setns_loop k w ents

/-- The NS_PATHS_ATTR case of the switch; returns the buffer as `strtok_r` left
it. -/
def ns_paths (k : Kernel) (w : World) (m : List Nat) (current : Nat) :
    Outcome (List Nat) × World :=
  match strtok_r m current with
  | none => (.undef, w)
  | some (m, ns, saveptr) =>
    match ns, strlen m current with
    | none, _ => bail 15 "ns paths are empty" w
    | some _, none => (.undef, w)
    | some ns, some n =>
      if n = 0 then bail 15 "ns paths are empty" w
      else
        match ns_open_loop k (m.length + 1) w m ns saveptr [] with
        | (.ok (m, ents), w) =>
          (match ns_setns_loop k w ents with
           | (.ok _, w) => (.ok m, w)
           | (.exit c s, w) => (.exit c s, w)
           | (.undef, w) => (.undef, w)
           | (.outOfFuel, w) => (.outOfFuel, w))
        | (.exit c s, w) => (.exit c s, w)
        | (.undef, w) => (.undef, w)
        | (.outOfFuel, w) => (.outOfFuel, w)

/-- The switch on `nlattr->nla_type`, with `current` already advanced to the
attribute value. -/
def nl_switch (k : Kernel) (w : World) (config : nlconfig_t) (nla_type : Nat)
    (payload_len : Nat) (current : Nat) : Outcome nlconfig_t × World :=
  if nla_type = CLONE_FLAGS_ATTR then
    match readint32 config.data current with
    | none => (.undef, w)
    | some v => (.ok { config with cloneflags := v }, w)
  else if nla_type = CONSOLE_PATH_ATTR then
    match cstr config.data current with
    | none => (.undef, w)
    | some path =>
      let (r, w) := sys k w (.open_ (.bytes path) O_RDWR)
      if r.ret < 0 then bail 14 "failed to open console %s" w
      else (.ok { config with consolefd := r.ret }, w)
  else if nla_type = NS_PATHS_ATTR then
    match ns_paths k w config.data current with
    | (.ok m, w) => (.ok { config with data := m }, w)
    | (.exit c s, w) => (.exit c s, w)
    | (.undef, w) => (.undef, w)
    | (.outOfFuel, w) => (.outOfFuel, w)
  else if nla_type = UIDMAP_ATTR then
    (.ok { config with uidmap := some current, uidmap_len := to_int payload_len }, w)
  else if nla_type = GIDMAP_ATTR then
    (.ok { config with gidmap := some current, gidmap_len := to_int payload_len }, w)
  else if nla_type = SETGROUP_ATTR then
    match readint8 config.data current with
    | none => (.undef, w)
    | some v => (.ok { config with is_setgroup := v }, w)
  else bail 18 "unknown netlink message type %d" w

/-- One iteration of the while loop of `nl_parse`: the frame at `current`. -/
def nl_attr (k : Kernel) (w : World) (config : nlconfig_t) (current : Nat) :
    Outcome (nlconfig_t × Nat) × World :=
  match load16 config.data current, load16 config.data (current + 2) with
  | some nla_len, some nla_type =>
    let payload_len := (nla_len + SIZE_MOD - NLA_HDRLEN) % SIZE_MOD
    let w := { w with visited := w.visited ++ [⟨current, nla_len, nla_type⟩] }
    let current := (current + NLA_HDRLEN) % SIZE_MOD
    match nl_switch k w config nla_type payload_len current with
    | (.ok config, w) => (.ok (config, (current + NLA_ALIGN payload_len) % SIZE_MOD), w)
    | (.exit c s, w) => (.exit c s, w)
    | (.undef, w) => (.undef, w)
    | (.outOfFuel, w) => (.outOfFuel, w)
  | _, _ => (.undef, w)

/-- The while loop of `nl_parse`: `while (current < data + size)`. -/
def nl_loop (k : Kernel) (size : Nat) : Nat → World → nlconfig_t → Nat →
    Outcome nlconfig_t × World
  | 0, w, config, current =>
    if current < size then (.outOfFuel, w) else (.ok config, w)
  | fuel + 1, w, config, current =>
    if current < size then
      match nl_attr k w config current with
      | (.ok (config, current), w) => nl_loop k size fuel w config current
      | (.exit c s, w) => (.exit c s, w)
      | (.undef, w) => (.undef, w)
      | (.outOfFuel, w) => (.outOfFuel, w)
    else (.ok config, w)

/-- The bytes a `read` of `count` bytes leaves in the buffer. -/
def read_bytes (r : SysRet) (count : Nat) : List Nat :=
  (r.data.take count).map (· % 256)

/-- The source's `nl_parse`. -/
def nl_parse (fuel : Nat) (k : Kernel) (w : World) (fd : Int) (config : nlconfig_t) :
    Outcome nlconfig_t × World :=
  let (r, w) := sys k w (.read fd NLMSG_HDRLEN)
  let len := to_size_t r.ret
  if len ≠ NLMSG_HDRLEN then bail 9 "invalid netlink header length %lu" w
  else
    let hdr := read_bytes r NLMSG_HDRLEN
    let nlmsg_len := hdr.getD 0 0 + 256 * hdr.getD 1 0 + 65536 * hdr.getD 2 0
                      + 16777216 * hdr.getD 3 0
    let nlmsg_type := hdr.getD 4 0 + 256 * hdr.getD 5 0
    if nlmsg_type = NLMSG_ERROR then bail 10 "failed to read netlink message" w
    else if nlmsg_type ≠ INIT_MSG then bail 11 "unexpected msg type %d" w
    else
      let size := (nlmsg_len + UINT_MOD - NLMSG_HDRLEN) % UINT_MOD
      let (r, w) := sys k w (.malloc size)
      if r.ret = 0 then
        bail 12 "failed to allocate %zu bytes of memory for nl_payload" w
      else
        let (r, w) := sys k w (.read fd size)
        let len := to_size_t r.ret
        if len ≠ size then bail 13 "failed to read netlink payload, %lu != %lu" w
        else
          let config := { config with data := read_bytes r size, consolefd := -1 }
          nl_loop k size fuel w config 0

/-! ## initpipe -/

/-- The libc `isspace` in the C locale. -/
def isspace (b : Nat) : Bool := b = 32 || (9 ≤ b && b ≤ 13)

/-- The libc `isdigit`. -/
def isdigit (b : Nat) : Bool := 48 ≤ b && b ≤ 57

/-- The libc `strtol(s, &endptr, 10)` on a C string given without its
terminator: the value (clamped to LONG_MIN = -2^63 or LONG_MAX = 2^63 - 1), the
rest of the string at `endptr`, and whether errno is set to ERANGE. Without any digit no conversion is done and `endptr` is `s`. -/
def strtol (s : List Nat) : Int × List Nat × Bool :=
  let s1 := s.dropWhile isspace
  let (neg, s2) : Bool × List Nat :=
    match s1 with
    | 45 :: t => (true, t)
    | 43 :: t => (false, t)
    | _ => (false, s1)
  let digits := s2.takeWhile isdigit
  let rest := s2.dropWhile isdigit
  if digits = [] then (0, s, false)
  else
    let v : Nat := digits.foldl (fun a d => 10 * a + (d - 48)) 0
    if neg then
      if 9223372036854775808 < v then (-9223372036854775808, rest, true)
      else (-(v : Int), rest, false)
    else
      if 9223372036854775807 < v then (9223372036854775807, rest, true)
      else ((v : Int), rest, false)

/-- The source's `initpipe`. `env` is the result of
`getenv("_LIBCONTAINER_INITPIPE")`: `none` for NULL, else the bytes of the
value. -/
def initpipe (env : Option (List Nat)) (w : World) : Outcome Int × World :=
  match env with
  | none => (.ok (-1), w)
  | some v =>
    let s := v.takeWhile (· ≠ 0)
    if s = [] then (.ok (-1), w)
    else
      let w := { w with errno := 0 }
      let (val, endptr, erange) := strtol s
      let w := if erange then { w with errno := ERANGE } else w
      let pipenum := to_int (to_size_t val)
      if w.errno ≠ 0 ∨ endptr ≠ [] then bail 2 "unable to parse _LIBCONTAINER_INITPIPE" w
      else (.ok pipenum, w)

/-! ## The parent side -/

/-- The characters `printf("%d", i)` produces. -/
def dec_bytes (i : Int) : List Nat :=
  (if i < 0 then [45] else []) ++ (Nat.toDigits 10 i.natAbs).map Char.toNat

/-- The name of a file under `/proc/<pid>/`, as bytes. -/
def ProcFile.name : ProcFile → List Nat
  | .setgroups => [115, 101, 116, 103, 114, 111, 117, 112, 115]
  | .uid_map => [117, 105, 100, 95, 109, 97, 112]
  | .gid_map => [103, 105, 100, 95, 109, 97, 112]

/-- The length `vsnprintf` returns for `"/proc/%d/<file>"`. -/
def path_len (pid : Int) (file : ProcFile) : Int :=
  ((6 + (dec_bytes pid).length + 1 + file.name.length : Nat) : Int)

/-- The test `len != data_len` of `write_file` comes out false: `len` is the
result of write(2) stored in an `int`, compared in `size_t`. -/
def write_ok (ret : Int) (data_len : Nat) : Prop :=
  to_size_t (to_int (to_size_t ret)) = data_len

instance (ret : Int) (data_len : Nat) : Decidable (write_ok ret data_len) :=
  inferInstanceAs (Decidable (to_size_t (to_int (to_size_t ret)) = data_len))

/-- The source's `write_file(data, data_len, "/proc/%d/<file>", pid)`: `data`
is the memory from the pointer on. -/
def write_file (k : Kernel) (w : World) (data : List Nat) (data_len : Nat)
    (pid : Int) (file : ProcFile) : Int × World :=
  if path_len pid file < 0 then (-1, w)
  else
    let (o, w) := sys k w (.open_ (.proc pid file) O_RDWR)
    if o.ret < 0 then
      let (_, w) := sys k w (.close o.ret)
      (-1, w)
    else
      let (r, w) := sys k w (.write o.ret (data.take data_len))
      if ¬ write_ok r.ret data_len then
        let (_, w) := sys k w (.close o.ret)
        (-1, w)
      else
        let (_, w) := sys k w (.close o.ret)
        (0, w)

/-- The string "allow". -/
def SETGROUPS_ALLOW : List Nat := [97, 108, 108, 111, 119]
/-- The string "deny". -/
def SETGROUPS_DENY : List Nat := [100, 101, 110, 121]

/-- The source's `update_setgroups`. -/
def update_setgroups (k : Kernel) (w : World) (pid : Int) (setgroup : Bool) :
    Outcome Unit × World :=
  let policy := if setgroup then SETGROUPS_ALLOW else SETGROUPS_DENY
  let (ret, w) := write_file k w policy policy.length pid .setgroups
  if ret < 0 then
    if w.errno ≠ ENOENT then bail 3 "failed to write '%s' to /proc/%d/setgroups" w
    else (.ok (), w)
  else (.ok (), w)

/-- The source's `update_uidmap`; `mem` is the buffer `map` points into. -/
def update_uidmap (k : Kernel) (w : World) (pid : Int) (mem : List Nat)
    (map : Option Nat) (map_len : Int) : Outcome Unit × World :=
  match map with
  | none => (.ok (), w)
  | some p =>
    if map_len ≤ 0 then (.ok (), w)
    else
      let (ret, w) := write_file k w (mem.drop p) (to_size_t map_len) pid .uid_map
      if ret < 0 then bail 4 "failed to update /proc/%d/uid_map" w
      else (.ok (), w)

/-- The source's `update_gidmap`. -/
def update_gidmap (k : Kernel) (w : World) (pid : Int) (mem : List Nat)
    (map : Option Nat) (map_len : Int) : Outcome Unit × World :=
  match map with
  | none => (.ok (), w)
  | some p =>
    if map_len ≤ 0 then (.ok (), w)
    else
      let (ret, w) := write_file k w (mem.drop p) (to_size_t map_len) pid .gid_map
      if ret < 0 then bail 5 "failed to update /proc/%d/gid_map" w
      else (.ok (), w)

/-- The source's `clone_parent`; `flags` is the bit pattern of the `int`. In the
process calling it, clone returns the pid of the child or -1. -/
def clone_parent (k : Kernel) (w : World) (flags : Nat) : Outcome Int × World :=
  let (r, w) := sys k w (.clone (CLONE_PARENT ||| SIGCHLD ||| flags))
  let child := r.ret
  if w.errno = EINVAL then
    let (u, w) := sys k w (.unshare flags)
    if u.ret < 0 then bail 1 "unable to unshare namespaces" w
    else
      let (r, w) := sys k w (.clone (SIGCHLD ||| CLONE_PARENT))
      (.ok r.ret, w)
  else (.ok child, w)

/-- The line `snprintf` formats for the report of the child pid: an opening
brace, `"pid": `, the pid in decimal, a closing brace and a newline. -/
def pid_report (childpid : Int) : List Nat :=
  [123, 34, 112, 105, 100, 34, 58, 32] ++ dec_bytes childpid ++ [125, 10]

/-- The part of `start_child` after the child has been created and the
mappings written: the sync byte and the report of the pid. -/
def start_child_rest (k : Kernel) (w : World) (pipenum : Int) (sync0 sync1 : Int)
    (childpid : Int) : Outcome Unit × World :=
  let (_, w) := sys k w (.close sync0)
  let (r, w) := sys k w (.write sync1 [SYNC_VAL])
  if to_size_t r.ret ≠ 1 then bail 7 "failed to write sync byte to child" w
  else if ((pid_report childpid).length : Int) < 0 then
    let (_, w) := sys k w (.kill childpid SIGKILL)
    bail 8 "unable to send a child pid" w
  else
    let (r, w) := sys k w (.write pipenum (pid_report childpid))
    if r.ret ≠ ((pid_report childpid).length : Int) then
      let (_, w) := sys k w (.kill childpid SIGKILL)
      bail 8 "unable to send a child pid" w
    else (.exit 0 "", w)

/-- The source's `start_child`. It never returns: it ends in `exit(0)` or in a
`bail`. -/
def start_child (k : Kernel) (w : World) (pipenum : Int) (sync0 sync1 : Int)
    (config : nlconfig_t) : Outcome Unit × World :=
  match clone_parent k w config.cloneflags with
  | (.ok childpid, w) =>
    if childpid < 0 then bail 6 "unable to fork" w
    else
      match (if config.is_setgroup ≠ 0 then update_setgroups k w childpid true
             else (.ok (), w)) with
      | (.ok _, w) =>
        (match update_uidmap k w childpid config.data config.uidmap config.uidmap_len with
         | (.ok _, w) =>
           (match update_gidmap k w childpid config.data config.gidmap
                    config.gidmap_len with
            | (.ok _, w) => start_child_rest k w pipenum sync0 sync1 childpid
            | other => other)
         | other => other)
      | other => other
  | (.exit c s, w) => (.exit c s, w)
  | (.undef, w) => (.undef, w)
  | (.outOfFuel, w) => (.outOfFuel, w)

/-! ## The child side and the entry point -/

/-- The variable `uint8_t s = 0` after `read(syncpipe[0], &s, sizeof(s))`: the
byte read if the read stored one, else still 0. -/
def sync_byte (r : SysRet) : Nat :=
  if 1 ≤ r.ret then (read_bytes r 1).getD 0 0 else 0

/-- The calls the child makes only after the sync byte: setsid, setuid, setgid,
setgroups and the console attachment (ioctl, dup3). -/
def afterSync (c : Call) : Prop :=
  match c with
  | .setsid => True
  | .setuid _ => True
  | .setgid _ => True
  | .setgroups _ => True
  | .ioctl _ _ => True
  | .dup3 _ _ _ => True
  | _ => False

/-- The branch of `nsexec` taken when `setjmp` returns `JUMP_VAL`: the body of
the new process, which starts with a copy of `config` and `syncpipe`. The
outcome `ok` is the `return` to the Go runtime. -/
def nsexec_child (k : Kernel) (w : World) (config : nlconfig_t) (sync0 sync1 : Int) :
    Outcome Unit × World :=
  let consolefd := config.consolefd
  let (_, w) := sys k w (.close sync1)
  let (r, w) := sys k w (.read sync0 1)
  if to_size_t r.ret ≠ 1 ∨ sync_byte r ≠ SYNC_VAL then
    bail 21 "failed to read sync byte from parent" w
  else
    let (r, w) := sys k w .setsid
    if r.ret < 0 then bail 22 "setsid failed" w
    else
      let (r, w) := sys k w (.setuid 0)
      if r.ret < 0 then bail 23 "setuid failed" w
      else
        let (r, w) := sys k w (.setgid 0)
        if r.ret < 0 then bail 24 "setgid failed" w
        else
          let (r, w) := sys k w (.setgroups 0)
          if r.ret < 0 then bail 25 "setgroups failed" w
          else if consolefd ≠ -1 then
            let (r, w) := sys k w (.ioctl consolefd TIOCSCTTY)
            if r.ret < 0 then bail 26 "ioctl TIOCSCTTY failed" w
            else
              let (r, w) := sys k w (.dup3 consolefd STDIN_FILENO 0)
              if r.ret ≠ STDIN_FILENO then bail 27 "failed to dup stdin" w
              else
                let (r, w) := sys k w (.dup3 consolefd STDOUT_FILENO 0)
                if r.ret ≠ STDOUT_FILENO then bail 28 "failed to dup stdout" w
                else
                  let (r, w) := sys k w (.dup3 consolefd STDERR_FILENO 0)
                  if r.ret ≠ STDERR_FILENO then bail 29 "failed to dup stderr" w
                  else (.ok (), w)
          else (.ok (), w)

/-- The source's `nsexec`, in the process that calls it (where `setjmp` returns
0). The outcome `ok` is the `return` to the caller. -/
def nsexec (fuel : Nat) (k : Kernel) (w : World) (env : Option (List Nat)) :
    Outcome Unit × World :=
  match initpipe env w with
  | (.ok pipenum, w) =>
    if pipenum = -1 then (.ok (), w)
    else
      match nl_parse fuel k w pipenum nlconfig_zero with
      | (.ok config, w) =>
        if config.cloneflags = UINT_MOD - 1 then bail 19 "missing clone_flags" w
        else
          let (r, w) := sys k w .pipe
          if r.ret < 0 then
            bail 20 "failed to setup sync pipe between parent and child" w
          else
            let sync0 : Int := (r.data.getD 0 0 : Nat)
            let sync1 : Int := (r.data.getD 1 0 : Nat)
            match start_child k w pipenum sync0 sync1 config with
            | (.ok _, w) => bail 30 "should never be reached" w
            | other => other
      | (.exit c s, w) => (.exit c s, w)
      | (.undef, w) => (.undef, w)
      | (.outOfFuel, w) => (.outOfFuel, w)
  | (.exit c s, w) => (.exit c s, w)
  | (.undef, w) => (.undef, w)
  | (.outOfFuel, w) => (.outOfFuel, w)

/-! ## What the parent does to the child, read off the trace -/

/-- A 16-bit value as two bytes, least significant first. -/
def le16 (n : Nat) : List Nat := [n % 256, n / 256 % 256]

/-- A 32-bit value as four bytes, least significant first. -/
def le32 (n : Nat) : List Nat :=
  [n % 256, n / 256 % 256, n / 65536 % 256, n / 16777216 % 256]

/-- Zero padding that brings a value of `len` bytes to a multiple of 4. -/
def pad4 (len : Nat) : List Nat := List.replicate ((4 - len % 4) % 4) 0

/-- One attribute frame: nla_len = 4 + value length, nla_type, the value, and
zero padding to a multiple of 4. -/
def frame (nla_type : Nat) (val : List Nat) : List Nat :=
  le16 (4 + val.length) ++ le16 nla_type ++ val ++ pad4 val.length

/-- The 16 bytes of `struct nlmsghdr` of a message with the given payload. -/
def nlmsg_hdr (nlmsg_type flags seq pid : Nat) (payload : List Nat) : List Nat :=
  le32 (NLMSG_HDRLEN + payload.length) ++ le16 nlmsg_type ++ le16 flags ++ le32 seq ++ le32 pid

/-- The payload that encodes clone flags, uid map, gid map and setgroups flag,
in this order. -/
def init_payload (c : Nat) (u g : List Nat) (s : Nat) : List Nat :=
  frame CLONE_FLAGS_ATTR (le32 c) ++ frame UIDMAP_ATTR u ++ frame GIDMAP_ATTR g
    ++ frame SETGROUP_ATTR [s]

/-- The NS_PATHS_ATTR value for a list of paths: the paths joined by commas,
with the terminating NUL. -/
def ns_value (paths : List (List Nat)) : List Nat :=
  List.intercalate [44] paths ++ [0]

/-- The kernel hands the message over in full: the read of the header returns
its 16 bytes, malloc succeeds, and the read of the payload returns all of it. -/
def Delivers (k : Kernel) (w : World) (fd : Int) (hdr payload : List Nat) : Prop :=
  (sys k w (.read fd NLMSG_HDRLEN)).1.ret = 16 ∧
  (sys k w (.read fd NLMSG_HDRLEN)).1.data = hdr ∧
  (sys k (sys k w (.read fd NLMSG_HDRLEN)).2 (.malloc payload.length)).1.ret ≠ 0 ∧
  (sys k (sys k (sys k w (.read fd NLMSG_HDRLEN)).2 (.malloc payload.length)).2
    (.read fd payload.length)).1.ret = payload.length ∧
  (sys k (sys k (sys k w (.read fd NLMSG_HDRLEN)).2 (.malloc payload.length)).2
    (.read fd payload.length)).1.data = payload

/-- A namespace path as it can stand in the comma-separated list: not empty,
and free of commas and NUL bytes. -/
def valid_path (p : List Nat) : Prop := p ≠ [] ∧ ∀ b ∈ p, b ≠ 44 ∧ b ≠ 0

/-- The open calls of a trace, in order: path and returned descriptor. -/
def open_calls : List Event → List (Path × Int)
  | [] => []
  | e :: es =>
    (match e.call with
     | .open_ p _ => [(p, e.ans.ret)]
     | _ => []) ++ open_calls es

/-- The setns calls of a trace, in order: descriptor and return value. -/
def setns_calls : List Event → List (Int × Int)
  | [] => []
  | e :: es =>
    (match e.call with
     | .setns fd _ => [(fd, e.ans.ret)]
     | _ => []) ++ setns_calls es

/-- The write calls of a trace, in order: descriptor and bytes. -/
def write_calls : List Event → List (Int × List Nat)
  | [] => []
  | e :: es =>
    (match e.call with
     | .write fd d => [(fd, d)]
     | _ => []) ++ write_calls es

/-- The bytes behind the terminator of the current token, when the paths in
`rest` are still to come: the rest of the list, or what follows the list. -/
def ns_rest (rest : List (List Nat)) (post : List Nat) : List Nat :=
  match rest with
  | [] => post
  | _ :: _ => ns_value rest ++ post

/-- How far behind the end of the current token `strtok_r` leaves its saved
pointer: past the comma it overwrote, or on the terminator of the list. -/
def ns_skip (rest : List (List Nat)) : Nat :=
  match rest with
  | [] => 0
  | _ :: _ => 1

/-! ## Concrete environments for the examples -/

/-- The number of bytes the reads in a history have consumed. -/
def consumed : List Event → Nat
  | [] => 0
  | e :: es =>
    (match e.call with
     | .read _ _ => e.ans.data.length
     | _ => 0) + consumed es

/-- A well-behaved kernel: `read` hands out the bytes of `input` in order,
allocations succeed, `open` succeeds with a fresh descriptor except on the
paths listed in `missing` (ENOENT), `setns` succeeds except on the descriptors
listed in `refused` (EINVAL), `clone` creates process 1000, `write` writes
everything, and every other call returns 0. -/
def demoKernel (input : List Nat) (missing : List Path) (refused : List Int) : Kernel :=
  fun h c =>
    match c with
    | .read _ n => ⟨(((input.drop (consumed h)).take n).length : Nat), 0,
                    (input.drop (consumed h)).take n⟩
    | .malloc _ => ⟨1, 0, []⟩
    | .realloc _ => ⟨1, 0, []⟩
    | .open_ path _ => if path ∈ missing then ⟨-1, ENOENT, []⟩ else ⟨((3 + h.length : Nat) : Int), 0, []⟩
    | .setns fd _ => if fd ∈ refused then ⟨-1, EINVAL, []⟩ else ⟨0, 0, []⟩
    | .pipe => ⟨0, 0, [3 + h.length, 4 + h.length]⟩
    | .clone _ => ⟨1000, 0, []⟩
    | .write _ d => ⟨(d.length : Nat), 0, []⟩
    | .dup3 _ newfd _ => ⟨newfd, 0, []⟩
    | _ => ⟨0, 0, []⟩

/-- The world at the entry of `nsexec`: nothing called yet, errno clear. -/
def world0 : World := { trace := [], errno := 0, visited := [] }

/-- The uid map "0 7 1" and the gid map "0 8 1" of the examples. -/
def demo_uid : List Nat := [48, 32, 55, 32, 49]
def demo_gid : List Nat := [48, 32, 56, 32, 49]

/-- A complete message: CLONE_NEWUSER, the two maps, setgroups flag 1. -/
def demo_msg : List Nat :=
  nlmsg_hdr INIT_MSG 0 0 0 (init_payload 0x10000000 demo_uid demo_gid 1)
    ++ init_payload 0x10000000 demo_uid demo_gid 1

/-- A record whose buffer holds one SETGROUP_ATTR frame of declared length 5. -/
def demo_frame_config : nlconfig_t :=
  { nlconfig_zero with data := [5, 0, 150, 106, 1, 0, 0, 0] }

/-- A message whose only attribute has the unrecognized type 27287. -/
def demo_msg_unknown : List Nat :=
  nlmsg_hdr INIT_MSG 0 0 0 (frame 27287 []) ++ frame 27287 []

/-- A message without a clone-flags attribute: only the setgroups flag, clear. -/
def demo_msg_no_flags : List Nat :=
  nlmsg_hdr INIT_MSG 0 0 0 (frame SETGROUP_ATTR [0]) ++ frame SETGROUP_ATTR [0]

/-- A message that does carry clone flags, namely 0xFFFFFFFF. -/
def demo_msg_all_flags : List Nat :=
  nlmsg_hdr INIT_MSG 0 0 0 (frame CLONE_FLAGS_ATTR (le32 0xFFFFFFFF))
    ++ frame CLONE_FLAGS_ATTR (le32 0xFFFFFFFF)

/-- The value "5" of _LIBCONTAINER_INITPIPE. -/
def demo_env : Option (List Nat) := some [53]

/-- The paths "/a", "/b" and "/c". -/
def demo_p1 : List Nat := [47, 97]
def demo_p2 : List Nat := [47, 98]
def demo_p3 : List Nat := [47, 99]

/-- A message with clone flags and the three namespace paths. -/
def demo_msg_paths : List Nat :=
  nlmsg_hdr INIT_MSG 0 0 0
      (frame CLONE_FLAGS_ATTR (le32 0x10000000)
        ++ frame NS_PATHS_ATTR (ns_value [demo_p1, demo_p2, demo_p3]))
    ++ (frame CLONE_FLAGS_ATTR (le32 0x10000000)
        ++ frame NS_PATHS_ATTR (ns_value [demo_p1, demo_p2, demo_p3]))

/-! ## Theorems -/

/-! ### Bit masks -/

theorem land_mask (x : Nat) (hx : x < 2 ^ 64) : x &&& (2 ^ 64 - 1 - 3) = x / 4 * 4 := by
  have h1 : (2 ^ 64 - 1 - 3 : Nat) = (2 ^ 62 - 1) <<< 2 := by decide
  have h2 : x / 4 * 4 = (x >>> 2) <<< 2 := by
    rw [Nat.shiftLeft_eq, Nat.shiftRight_eq_div_pow]
  rw [h1, h2]
  apply Nat.eq_of_testBit_eq
  intro i
  simp only [Nat.testBit_and, Nat.testBit_shiftLeft, Nat.testBit_shiftRight,
    Nat.testBit_two_pow_sub_one]
  by_cases hi : 2 ≤ i
  · by_cases h64 : i < 64
    · have : i - 2 < 62 := by omega
      simp [hi, this]
    · have hlt : x < 2 ^ i := lt_of_lt_of_le hx (Nat.pow_le_pow_right (by decide) (by omega))
      have : x.testBit i = false := Nat.testBit_lt_two_pow hlt
      have e : 2 + (i - 2) = i := by omega
      simp [hi, e, this]
  · simp [hi]

/-! ### Bookkeeping of the world -/

@[simp] theorem sys_visited (k : Kernel) (w : World) (c : Call) :
    (sys k w c).2.visited = w.visited := rfl

theorem sys_fst (k : Kernel) (w : World) (c : Call) :
    (sys k w c).1 = k w.trace c := rfl

@[simp] theorem sys_trace (k : Kernel) (w : World) (c : Call) :
    (sys k w c).2.trace = w.trace ++ [⟨c, (sys k w c).1⟩] := rfl

theorem sys_errno (k : Kernel) (w : World) (c : Call) :
    (sys k w c).2.errno = if (sys k w c).1.ret < 0 then (sys k w c).1.errno else w.errno := rfl

theorem sys_eq {k : Kernel} {w w' : World} {c : Call} {r : SysRet}
    (h : sys k w c = (r, w')) :
    w'.trace = w.trace ++ [⟨c, r⟩] ∧ w'.visited = w.visited ∧
      w'.errno = (if r.ret < 0 then r.errno else w.errno) ∧ r = k w.trace c := by
  unfold sys at h
  simp only [Prod.mk.injEq] at h
  obtain ⟨rfl, rfl⟩ := h
  exact ⟨rfl, rfl, rfl, rfl⟩

theorem ns_setns_loop_visited (k : Kernel) (ents : List (Int × Nat)) :
    ∀ w, (ns_setns_loop k w ents).2.visited = w.visited := by
  induction ents with
  | nil => intro w; rfl
  | cons e ents ih =>
    intro w
    obtain ⟨fd, p⟩ := e
    simp only [ns_setns_loop]
    split
    · rfl
    · rw [ih]; rfl

theorem ns_open_loop_visited (k : Kernel) :
    ∀ fuel w m ns sp ents, (ns_open_loop k fuel w m ns sp ents).2.visited = w.visited := by
  intro fuel
  induction fuel with
  | zero => intros; rfl
  | succ fuel ih =>
    intro w m ns sp ents
    simp only [ns_open_loop]
    split
    · rfl
    · split
      · rfl
      · split
        · rfl
        · split
          · rfl
          · rfl
          · rw [ih]; rfl


/-! ### strtok_r -/

theorem strspn_comma_stop : ∀ l : List Nat, l[strspn_comma l]? ≠ some 44 := by
  intro l
  induction l with
  | nil => simp [strspn_comma]
  | cons b bs ih =>
    unfold strspn_comma
    split
    · simpa using ih
    · rename_i h; simpa using h

theorem strcspn_comma_pos (l : List Nat) (b : Nat) (h0 : l[0]? = some b) (h1 : b ≠ 44)
    (h2 : b ≠ 0) : 0 < strcspn_comma l := by
  cases l with
  | nil => simp at h0
  | cons c cs =>
    simp at h0
    subst h0
    simp [strcspn_comma, h1, h2]

theorem strtok_r_token (m m' : List Nat) (s ns sp : Nat)
    (h : strtok_r m s = some (m', some ns, sp)) :
    m'.length = m.length ∧ s ≤ ns ∧ ns < sp ∧ sp ≤ m.length := by
  unfold strtok_r at h
  simp only [List.get?_eq_getElem?] at h
  split at h
  · simp at h
  · rename_i b hb
    split at h
    · simp at h
    · rename_i hb0
      have hstop := strspn_comma_stop (m.drop s)
      rw [List.getElem?_drop] at hstop
      have hb44 : b ≠ 44 := by
        intro hc; rw [hb, hc] at hstop; exact hstop rfl
      have hpos : 0 < strcspn_comma (m.drop (s + strspn_comma (m.drop s))) := by
        apply strcspn_comma_pos _ b _ hb44 hb0
        rw [List.getElem?_drop]; simpa using hb
      split at h
      · simp at h
      · rename_i c hc
        have hlt := (List.getElem?_eq_some_iff.mp hc).1
        split at h
        · simp at h
          obtain ⟨h1, h2, h3⟩ := h
          subst h1 h2 h3
          refine ⟨rfl, by omega, by omega, by omega⟩
        · simp at h
          obtain ⟨h1, h2, h3⟩ := h
          subst h1 h2 h3
          refine ⟨by simp, by omega, by omega, by omega⟩

theorem strtok_r_null (m m' : List Nat) (s sp : Nat)
    (h : strtok_r m s = some (m', none, sp)) : m' = m := by
  unfold strtok_r at h
  simp only [List.get?_eq_getElem?] at h
  split at h
  · simp at h
  · split at h
    · simp at h; exact h.1.symm
    · split at h
      · simp at h
      · split at h <;> simp at h


theorem ns_open_loop_fuel (k : Kernel) :
    ∀ fuel w m ns sp ents, sp ≤ m.length → m.length < sp + fuel →
      (ns_open_loop k fuel w m ns sp ents).1 ≠ .outOfFuel := by
  intro fuel
  induction fuel with
  | zero => intro w m ns sp ents h1 h2; omega
  | succ fuel ih =>
    intro w m ns sp ents h1 h2
    simp only [ns_open_loop]
    split
    · simp
    · split
      · simp [bail]
      · split
        · simp
        · split
          · simp
          · simp
          · rename_i m' ns' sp' heq
            have ht := strtok_r_token _ _ _ _ _ heq
            apply ih <;> omega

theorem ns_paths_visited (k : Kernel) (w : World) (m : List Nat) (current : Nat) :
    (ns_paths k w m current).2.visited = w.visited := by
  unfold ns_paths
  cases h : strtok_r m current with
  | none => rfl
  | some t =>
    obtain ⟨m1, ns, sp⟩ := t
    dsimp only
    cases ns with
    | none => rfl
    | some ns =>
      cases hl : strlen m1 current with
      | none => rfl
      | some n =>
        dsimp only
        by_cases hn : n = 0
        · simp [hn, bail]
        · simp only [hn, if_false]
          have h1 := ns_open_loop_visited k (m1.length + 1) w m1 ns sp []
          generalize ns_open_loop k (m1.length + 1) w m1 ns sp [] = r at h1 ⊢
          obtain ⟨o, w2⟩ := r
          cases o with
          | ok a =>
            obtain ⟨m2, ents⟩ := a
            dsimp only
            have h2 := ns_setns_loop_visited k ents w2
            generalize ns_setns_loop k w2 ents = r2 at h2 ⊢
            obtain ⟨o2, w3⟩ := r2
            cases o2 <;> simp at h1 h2 ⊢ <;> rw [h2, h1]
          | exit c s => exact h1
          | undef => exact h1
          | outOfFuel => exact h1

theorem ns_setns_loop_fuel (k : Kernel) (ents : List (Int × Nat)) :
    ∀ w, (ns_setns_loop k w ents).1 ≠ .outOfFuel ∧ (ns_setns_loop k w ents).1 ≠ .undef := by
  induction ents with
  | nil => intro w; simp [ns_setns_loop]
  | cons e ents ih =>
    intro w
    obtain ⟨fd, p⟩ := e
    simp only [ns_setns_loop]
    split
    · simp [bail]
    · exact ih _

theorem ns_paths_fuel (k : Kernel) (w : World) (m : List Nat) (current : Nat) :
    (ns_paths k w m current).1 ≠ .outOfFuel := by
  unfold ns_paths
  cases h : strtok_r m current with
  | none => simp
  | some t =>
    obtain ⟨m1, ns, sp⟩ := t
    dsimp only
    cases ns with
    | none => simp [bail]
    | some ns =>
      cases hl : strlen m1 current with
      | none => simp
      | some n =>
        dsimp only
        by_cases hn : n = 0
        · simp [hn, bail]
        · simp only [hn, if_false]
          have ht := strtok_r_token _ _ _ _ _ h
          have h1 := ns_open_loop_fuel k (m1.length + 1) w m1 ns sp [] (by omega) (by omega)
          generalize ns_open_loop k (m1.length + 1) w m1 ns sp [] = r at h1 ⊢
          obtain ⟨o, w2⟩ := r
          cases o with
          | ok a =>
            obtain ⟨m2, ents⟩ := a
            dsimp only
            have h2 := (ns_setns_loop_fuel k ents w2).1
            generalize ns_setns_loop k w2 ents = r2 at h2 ⊢
            obtain ⟨o2, w3⟩ := r2
            cases o2 <;> simp at h2 ⊢
          | exit c s => simp
          | undef => simp
          | outOfFuel => simp at h1

theorem nl_switch_visited (k : Kernel) (w : World) (config : nlconfig_t) (t pl cur : Nat) :
    (nl_switch k w config t pl cur).2.visited = w.visited := by
  unfold nl_switch
  split_ifs
  · cases readint32 config.data cur <;> rfl
  · cases cstr config.data cur with
    | none => rfl
    | some path =>
      dsimp only
      split_ifs <;> rfl
  · have h := ns_paths_visited k w config.data cur
    generalize ns_paths k w config.data cur = r at h ⊢
    obtain ⟨o, w2⟩ := r
    cases o <;> exact h
  · rfl
  · rfl
  · cases readint8 config.data cur <;> rfl
  · rfl

theorem nl_switch_fuel (k : Kernel) (w : World) (config : nlconfig_t) (t pl cur : Nat) :
    (nl_switch k w config t pl cur).1 ≠ .outOfFuel := by
  unfold nl_switch
  split_ifs
  · cases readint32 config.data cur <;> simp
  · cases cstr config.data cur with
    | none => simp
    | some path =>
      dsimp only
      split_ifs <;> simp [bail]
  · have h := ns_paths_fuel k w config.data cur
    generalize ns_paths k w config.data cur = r at h ⊢
    obtain ⟨o, w2⟩ := r
    cases o <;> simp at h ⊢
  · simp
  · simp
  · cases readint8 config.data cur <;> simp
  · simp [bail]

theorem nl_switch_unknown (k : Kernel) (w : World) (config : nlconfig_t) (t pl cur : Nat)
    (h : t ∉ recognized_attrs) :
    nl_switch k w config t pl cur = (.exit 18 "unknown netlink message type %d", w) := by
  simp only [recognized_attrs, List.mem_cons, List.mem_singleton, not_or, List.not_mem_nil,
    or_false] at h
  obtain ⟨h1, h2, h3, h4, h5, h6⟩ := h
  simp [nl_switch, h1, h2, h3, h4, h5, h6, bail]

theorem nl_switch_ok_recognized (k : Kernel) (w w' : World) (config c' : nlconfig_t)
    (t pl cur : Nat) (h : nl_switch k w config t pl cur = (.ok c', w')) :
    t ∈ recognized_attrs := by
  by_contra hn
  rw [nl_switch_unknown k w config t pl cur hn] at h
  simp at h

theorem load16_lt (m : List Nat) (p L : Nat) (h : load16 m p = some L) : L < 65536 := by
  unfold load16 at h
  split at h
  · simp at h; omega
  · simp at h

theorem align_step (L : Nat) (hL : L < 65536) :
    (NLA_HDRLEN + NLA_ALIGN ((L + SIZE_MOD - NLA_HDRLEN) % SIZE_MOD)) % SIZE_MOD
      = (L + 3) &&& (SIZE_MOD - 4) := by
  have h2 : (L + 3) &&& (2 ^ 64 - 1 - 3) = (L + 3) / 4 * 4 := land_mask _ (by omega)
  have h1 := land_mask (((L + 2 ^ 64 - 4) % 2 ^ 64 + 4 - 1) % 2 ^ 64) (Nat.mod_lt _ (by norm_num))
  simp only [NLA_ALIGN, NLA_HDRLEN, NLA_ALIGNTO, SIZE_MOD] at *
  rw [h1]
  have e : (2 ^ 64 - 4 : Nat) = 2 ^ 64 - 1 - 3 := by norm_num
  rw [e, h2]
  omega

theorem cursor_step (current L : Nat) (hL : L < 65536) :
    ((current + NLA_HDRLEN) % SIZE_MOD
        + NLA_ALIGN ((L + SIZE_MOD - NLA_HDRLEN) % SIZE_MOD)) % SIZE_MOD
      = (current + ((L + 3) &&& (SIZE_MOD - 4))) % SIZE_MOD := by
  rw [← align_step L hL]
  simp only [SIZE_MOD]
  omega

theorem land_round (L : Nat) (hL : L < 65536) : (L + 3) &&& (SIZE_MOD - 4) = (L + 3) / 4 * 4 := by
  have h2 : (L + 3) &&& (2 ^ 64 - 1 - 3) = (L + 3) / 4 * 4 := land_mask _ (by omega)
  have e : (SIZE_MOD - 4 : Nat) = 2 ^ 64 - 1 - 3 := by norm_num [SIZE_MOD]
  rw [e, h2]

/-- What one iteration of the walk does, case by case. -/
theorem nl_attr_cases (k : Kernel) (w : World) (config : nlconfig_t) (current : Nat) :
    nl_attr k w config current = (.undef, w) ∨
    ∃ L t, load16 config.data current = some L ∧ load16 config.data (current + 2) = some t ∧
      (nl_attr k w config current).2.visited = w.visited ++ [⟨current, L, t⟩] ∧
      (nl_attr k w config current).1 ≠ .outOfFuel ∧
      (t ∉ recognized_attrs →
        (nl_attr k w config current).1 = .exit 18 "unknown netlink message type %d") ∧
      (∀ c' cur', (nl_attr k w config current).1 = .ok (c', cur') →
        t ∈ recognized_attrs ∧
        cur' = (current + ((L + 3) &&& (SIZE_MOD - 4))) % SIZE_MOD) := by
  unfold nl_attr
  cases hL : load16 config.data current with
  | none => left; rfl
  | some L =>
    cases ht : load16 config.data (current + 2) with
    | none => left; rfl
    | some t =>
      right
      refine ⟨L, t, rfl, rfl, ?_⟩
      dsimp only
      have h16 := load16_lt _ _ _ hL
      generalize hw1 : ({ w with visited := w.visited ++ [⟨current, L, t⟩] } : World) = w1
      have hv := nl_switch_visited k w1 config t ((L + SIZE_MOD - NLA_HDRLEN) % SIZE_MOD)
        ((current + NLA_HDRLEN) % SIZE_MOD)
      have hf := nl_switch_fuel k w1 config t ((L + SIZE_MOD - NLA_HDRLEN) % SIZE_MOD)
        ((current + NLA_HDRLEN) % SIZE_MOD)
      have hu := nl_switch_unknown k w1 config t ((L + SIZE_MOD - NLA_HDRLEN) % SIZE_MOD)
        ((current + NLA_HDRLEN) % SIZE_MOD)
      have hr := fun c' w' => nl_switch_ok_recognized k w1 w' config c' t
        ((L + SIZE_MOD - NLA_HDRLEN) % SIZE_MOD) ((current + NLA_HDRLEN) % SIZE_MOD)
      generalize nl_switch k w1 config t ((L + SIZE_MOD - NLA_HDRLEN) % SIZE_MOD)
        ((current + NLA_HDRLEN) % SIZE_MOD) = r at hv hf hu hr ⊢
      have hw1v : w1.visited = w.visited ++ [⟨current, L, t⟩] := by rw [← hw1]
      obtain ⟨o, w2⟩ := r
      cases o with
      | ok c =>
        refine ⟨by simpa [hw1v] using hv, by simp, ?_, ?_⟩
        · intro hn; have := hu hn; simp at this
        · intro c' cur' h
          simp at h
          refine ⟨hr c w2 rfl, ?_⟩
          rw [← h.2]
          have hc := cursor_step current L h16
          rw [Nat.mod_add_mod] at hc
          exact hc
      | exit code msg =>
        refine ⟨by simpa [hw1v] using hv, by simp, ?_, ?_⟩
        · intro hn; have := hu hn; simp at this ⊢; exact this.1
        · intro c' cur' h; simp at h
      | undef =>
        refine ⟨by simpa [hw1v] using hv, by simp, ?_, ?_⟩
        · intro hn; have := hu hn; simp at this
        · intro c' cur' h; simp at h
      | outOfFuel => simp at hf

/-- The walk only appends to the log of visited frames; an unrecognized frame
ends it with exit 18; and when every frame declares a length of at least 1,
`fuel` iterations suffice as soon as `size ≤ current + 4 * fuel`. -/
theorem nl_loop_walk (k : Kernel) (size : Nat) (hsize : size ≤ UINT_MOD) :
    ∀ fuel w config current,
    ∃ ext, (nl_loop k size fuel w config current).2.visited = w.visited ++ ext ∧
      (∀ f ∈ ext, f.nla_type ∉ recognized_attrs →
        (nl_loop k size fuel w config current).1
          = .exit 18 "unknown netlink message type %d") ∧
      ((∀ f ∈ ext, 1 ≤ f.nla_len) → size ≤ current + 4 * fuel →
        (nl_loop k size fuel w config current).1 ≠ .outOfFuel) := by
  intro fuel
  induction fuel with
  | zero =>
    intro w config current
    refine ⟨[], ?_, ?_, ?_⟩
    · unfold nl_loop; split_ifs <;> simp
    · intro f hf; simp at hf
    · intro _ hs
      have : ¬ current < size := by omega
      simp [nl_loop, this]
  | succ fuel ih =>
    intro w config current
    unfold nl_loop
    by_cases hc : current < size
    · simp only [hc, if_true]
      rcases nl_attr_cases k w config current with hu | ⟨L, t, hL, ht, hv, hf, hunk, hok⟩
      · rw [hu]
        exact ⟨[], by simp, by intro f hf; simp at hf, by intro _ _; simp⟩
      · generalize nl_attr k w config current = r at hv hf hunk hok ⊢
        obtain ⟨o, w1⟩ := r
        have h16 := load16_lt _ _ _ hL
        cases o with
        | ok a =>
          obtain ⟨c', cur'⟩ := a
          dsimp only
          obtain ⟨ext, he1, he2, he3⟩ := ih w1 c' cur'
          obtain ⟨hrec, hcur⟩ := hok c' cur' rfl
          refine ⟨⟨current, L, t⟩ :: ext, ?_, ?_, ?_⟩
          · rw [he1]; simp at hv; rw [hv]; simp
          · intro f hf hn
            simp only [List.mem_cons] at hf
            rcases hf with rfl | hf
            · exact absurd hrec hn
            · exact he2 f hf hn
          · intro hall hs
            apply he3
            · intro f hf; exact hall f (List.mem_cons_of_mem _ hf)
            · have hL1 : 1 ≤ L := hall ⟨current, L, t⟩ (List.mem_cons_self _ _)
              rw [hcur, land_round L h16]
              simp only [SIZE_MOD, UINT_MOD] at *
              omega
        | exit code msg =>
          refine ⟨[⟨current, L, t⟩], by simpa using hv, ?_, by intro _ _; simp⟩
          intro f hf hn
          simp only [List.mem_singleton] at hf
          subst hf
          simpa using hunk hn
        | undef =>
          refine ⟨[⟨current, L, t⟩], by simpa using hv, ?_, by intro _ _; simp⟩
          intro f hf hn
          simp only [List.mem_singleton] at hf
          subst hf
          simpa using hunk hn
        | outOfFuel => simp at hf
    · simp only [hc, if_false]
      exact ⟨[], by simp, by intro f hf; simp at hf, by intro _ _; simp⟩

/-- The same three facts for `nl_parse` as a whole. -/
theorem nl_parse_walk (fuel : Nat) (k : Kernel) (w : World) (fd : Int) (config : nlconfig_t) :
    ∃ ext, (nl_parse fuel k w fd config).2.visited = w.visited ++ ext ∧
      (∀ f ∈ ext, f.nla_type ∉ recognized_attrs →
        (nl_parse fuel k w fd config).1 = .exit 18 "unknown netlink message type %d") ∧
      ((∀ f ∈ ext, 1 ≤ f.nla_len) → 2 ^ 30 ≤ fuel →
        (nl_parse fuel k w fd config).1 ≠ .outOfFuel) := by
  unfold nl_parse
  dsimp only
  split_ifs
  · exact ⟨[], by simp [bail], by intro f hf; simp at hf, by intro _ _; simp [bail]⟩
  · exact ⟨[], by simp [bail], by intro f hf; simp at hf, by intro _ _; simp [bail]⟩
  · exact ⟨[], by simp [bail], by intro f hf; simp at hf, by intro _ _; simp [bail]⟩
  · exact ⟨[], by simp [bail], by intro f hf; simp at hf, by intro _ _; simp [bail]⟩
  · exact ⟨[], by simp [bail], by intro f hf; simp at hf, by intro _ _; simp [bail]⟩
  · rename_i h1 h2 h3 h4 h5
    generalize hsz : ((read_bytes (sys k w (Call.read fd NLMSG_HDRLEN)).1 NLMSG_HDRLEN).getD 0 0
      + 256 * (read_bytes (sys k w (Call.read fd NLMSG_HDRLEN)).1 NLMSG_HDRLEN).getD 1 0
      + 65536 * (read_bytes (sys k w (Call.read fd NLMSG_HDRLEN)).1 NLMSG_HDRLEN).getD 2 0
      + 16777216 * (read_bytes (sys k w (Call.read fd NLMSG_HDRLEN)).1 NLMSG_HDRLEN).getD 3 0
      + UINT_MOD - NLMSG_HDRLEN) % UINT_MOD = size
    have hsize : size ≤ UINT_MOD := by
      rw [← hsz]; exact le_of_lt (Nat.mod_lt _ (by norm_num [UINT_MOD]))
    obtain ⟨ext, he1, he2, he3⟩ := nl_loop_walk k size hsize fuel
      (sys k (sys k (sys k w (Call.read fd NLMSG_HDRLEN)).2 (Call.malloc size)).2
        (Call.read fd size)).2
      { config with
        data := read_bytes (sys k (sys k (sys k w (Call.read fd NLMSG_HDRLEN)).2
          (Call.malloc size)).2 (Call.read fd size)).1 size,
        consolefd := -1 } 0
    refine ⟨ext, ?_, he2, ?_⟩
    · rw [he1]; simp
    · intro hall hfuel
      apply he3 hall
      simp only [UINT_MOD] at hsize
      omega

/-- C10. One iteration of the attribute walk moves the cursor forward by the
declared length L rounded up to the next multiple of 4, computed modulo 2^64 as
4 + ((L - 4 + 3) & ~3) = (L + 3) & ~3, for every 16-bit L (also L < 4, where
payload_len wraps around). Hence the cursor strictly advances whenever L >= 1,
and the walk of `nl_parse` ends within 2^30 iterations unless it visits a frame
that declares L = 0. -/
theorem nl_attr_cursor_advance :
    (∀ L, L < 65536 →
      (NLA_HDRLEN + NLA_ALIGN ((L + SIZE_MOD - NLA_HDRLEN) % SIZE_MOD)) % SIZE_MOD
        = (L + 3) &&& (SIZE_MOD - 4) ∧
      (L + 3) &&& (SIZE_MOD - 4) = (L + 3) / 4 * 4) ∧
    (∀ (k : Kernel) (w w' : World) (config c' : nlconfig_t) (current L cur' : Nat),
      load16 config.data current = some L →
      nl_attr k w config current = (.ok (c', cur'), w') →
      L < 65536 ∧
      cur' = (current + ((L + 3) &&& (SIZE_MOD - 4))) % SIZE_MOD ∧
      (1 ≤ L → current < UINT_MOD → current < cur')) ∧
    (∀ (fuel : Nat) (k : Kernel) (w : World) (fd : Int) (config : nlconfig_t),
      2 ^ 30 ≤ fuel →
      (∀ f ∈ (nl_parse fuel k w fd config).2.visited.drop w.visited.length, 1 ≤ f.nla_len) →
      (nl_parse fuel k w fd config).1 ≠ .outOfFuel) := by
  refine ⟨fun L hL => ⟨align_step L hL, land_round L hL⟩, ?_, ?_⟩
  · intro k w w' config c' current L cur' hL hstep
    have h16 := load16_lt _ _ _ hL
    rcases nl_attr_cases k w config current with hu | ⟨L', t, hL', _, _, _, _, hok⟩
    · rw [hu] at hstep; simp at hstep
    · rw [hL] at hL'
      cases hL'
      have hcur := (hok c' cur' (by rw [hstep])).2
      refine ⟨h16, hcur, ?_⟩
      intro h1 hc
      rw [hcur, land_round L h16]
      simp only [SIZE_MOD, UINT_MOD] at *
      omega
  · intro fuel k w fd config hfuel hall
    obtain ⟨ext, he1, _, he3⟩ := nl_parse_walk fuel k w fd config
    apply he3 _ hfuel
    intro f hf
    apply hall
    rw [he1, List.drop_left]
    exact hf

/-- C8. Whenever the walk of `nl_parse` dispatches on a frame whose type is not
one of the six recognized codes 27281..27286, `nl_parse` ends in the fatal exit
"unknown netlink message type" (code 18) and yields no record; so whenever
`nl_parse` returns a record, every frame it visited had a recognized type. -/
theorem unknown_attr_rejected (fuel : Nat) (k : Kernel) (w : World) (fd : Int)
    (config : nlconfig_t) :
    (∀ t, t ∈ recognized_attrs ↔ 27281 ≤ t ∧ t ≤ 27286) ∧
    (∀ current L t, load16 config.data current = some L →
      load16 config.data (current + 2) = some t → t ∉ recognized_attrs →
      (nl_attr k w config current).1 = .exit 18 "unknown netlink message type %d") ∧
    (∀ f ∈ (nl_parse fuel k w fd config).2.visited.drop w.visited.length,
      f.nla_type ∉ recognized_attrs →
      (nl_parse fuel k w fd config).1 = .exit 18 "unknown netlink message type %d") ∧
    (∀ c, (nl_parse fuel k w fd config).1 = .ok c →
      ∀ f ∈ (nl_parse fuel k w fd config).2.visited.drop w.visited.length,
        f.nla_type ∈ recognized_attrs) := by
  obtain ⟨ext, he1, he2, _⟩ := nl_parse_walk fuel k w fd config
  have hdrop : (nl_parse fuel k w fd config).2.visited.drop w.visited.length = ext := by
    rw [he1, List.drop_left]
  refine ⟨?_, ?_, ?_, ?_⟩
  · intro t
    simp only [recognized_attrs, CLONE_FLAGS_ATTR, CONSOLE_PATH_ATTR, NS_PATHS_ATTR,
      UIDMAP_ATTR, GIDMAP_ATTR, SETGROUP_ATTR, List.mem_cons, List.mem_singleton,
      List.not_mem_nil, or_false]
    omega
  · intro current L t hL ht hn
    rcases nl_attr_cases k w config current with hu | ⟨L', t', hL', ht', _, _, hunk, _⟩
    · unfold nl_attr at hu
      rw [hL, ht] at hu
      dsimp only at hu
      exfalso
      have hf := nl_switch_unknown k
        { w with visited := w.visited ++ [⟨current, L, t⟩] } config t
        ((L + SIZE_MOD - NLA_HDRLEN) % SIZE_MOD) ((current + NLA_HDRLEN) % SIZE_MOD) hn
      rw [hf] at hu
      simp at hu
    · rw [ht] at ht'
      cases ht'
      exact hunk hn
  · intro f hf hn
    rw [hdrop] at hf
    exact he2 f hf hn
  · intro c hc f hf
    rw [hdrop] at hf
    by_contra hn
    have := he2 f hf hn
    rw [hc] at this
    simp at this

/-- C9. When _LIBCONTAINER_INITPIPE is unset or set to the empty string,
`initpipe` returns -1 and `nsexec` returns to its caller at once, with the world
unchanged: no descriptor read, no pipe or process created, no exit. -/
theorem no_initpipe_no_action (fuel : Nat) (k : Kernel) (w : World) (env : Option (List Nat))
    (h : env = none ∨ env = some []) :
    initpipe env w = (.ok (-1), w) ∧ nsexec fuel k w env = (.ok (), w) := by
  rcases h with rfl | rfl <;> simp [nsexec, initpipe]

theorem no_initpipe_no_action_witness :
    initpipe (some []) world0 = (.ok (-1), world0) ∧
    nsexec 4 (demoKernel [] [] []) world0 (some []) = (.ok (), world0) :=
  no_initpipe_no_action 4 (demoKernel [] [] []) world0 (some []) (Or.inr rfl)

theorem to_size_t_eq_one (r : Int) (h1 : -9223372036854775808 ≤ r)
    (h2 : r < 9223372036854775808) :
    to_size_t r = 1 ↔ r = 1 := by
  unfold to_size_t
  constructor
  · intro h
    omega
  · rintro rfl
    rfl

theorem sync_byte_eq (rd : SysRet) (h : rd.ret = 1) :
    sync_byte rd = SYNC_VAL ↔ read_bytes rd 1 = [SYNC_VAL] := by
  have hle : (1 : Int) ≤ rd.ret := by omega
  unfold sync_byte read_bytes
  simp only [hle, if_true]
  rcases hd : rd.data with _ | ⟨b, bs⟩
  · simp [SYNC_VAL]
  · simp [SYNC_VAL]

/-- C7. The child goes on to setsid, setuid(0), setgid(0), setgroups(0), the
console attachment and the return to its caller only if its read on the sync
pipe returned exactly one byte and that byte is the sentinel 0x42, the value the
parent writes. For any other byte, a read of 0 bytes or a failed read it ends in
the fatal exit "failed to read sync byte from parent" (code 21) right after the
read, having made none of these calls. The result of read(2) is an `ssize_t`,
between -2^63 and 2^63 - 1. -/
theorem child_gated_on_sentinel (k : Kernel) (w : World) (config : nlconfig_t)
    (sync0 sync1 : Int) (rd : SysRet)
    (hrd : rd = (sys k (sys k w (.close sync1)).2 (.read sync0 1)).1)
    (hlo : -9223372036854775808 ≤ rd.ret) (hhi : rd.ret < 9223372036854775808) :
    (¬ (rd.ret = 1 ∧ read_bytes rd 1 = [SYNC_VAL]) →
      nsexec_child k w config sync0 sync1
        = (.exit 21 "failed to read sync byte from parent",
           (sys k (sys k w (.close sync1)).2 (.read sync0 1)).2)) ∧
    (∀ e ∈ (nsexec_child k w config sync0 sync1).2.trace.drop w.trace.length,
      afterSync e.call → rd.ret = 1 ∧ read_bytes rd 1 = [SYNC_VAL]) ∧
    ((nsexec_child k w config sync0 sync1).1 = .ok () →
      rd.ret = 1 ∧ read_bytes rd 1 = [SYNC_VAL]) ∧
    ((rd.ret = 1 ∧ read_bytes rd 1 = [SYNC_VAL]) →
      ∀ msg, (nsexec_child k w config sync0 sync1).1 ≠ .exit 21 msg) ∧
    (∀ (pipenum childpid : Int),
      (((start_child_rest k w pipenum sync0 sync1 childpid).2.trace.drop w.trace.length).map
        Event.call).take 2 = [.close sync0, .write sync1 [SYNC_VAL]]) := by
  have hs := to_size_t_eq_one rd.ret hlo hhi
  clear hlo hhi
  have h1 : ¬ (rd.ret = 1 ∧ read_bytes rd 1 = [SYNC_VAL]) →
      nsexec_child k w config sync0 sync1
        = (.exit 21 "failed to read sync byte from parent",
           (sys k (sys k w (.close sync1)).2 (.read sync0 1)).2) := by
    intro hn
    unfold nsexec_child
    split
    rename_i r1 w1 e1
    split
    rename_i r2 w2 e2
    rw [e1] at hrd
    simp only [] at hrd
    rw [e1]
    simp only []
    rw [e2] at hrd ⊢
    simp only [] at hrd
    subst hrd
    rw [if_pos]
    · rfl
    · by_cases hret : rd.ret = 1
      · right
        intro hc
        exact hn ⟨hret, (sync_byte_eq rd hret).mp hc⟩
      · left
        intro hc
        exact hret (hs.mp hc)
  refine ⟨h1, ?_, ?_, ?_, ?_⟩
  · intro e he ha
    by_contra hn
    rw [h1 hn] at he
    simp at he
    rcases he with rfl | rfl <;> simp [afterSync] at ha
  · intro hok
    by_contra hn
    rw [h1 hn] at hok
    simp at hok
  · rintro ⟨hret, hbyte⟩ msg
    unfold nsexec_child
    split
    rename_i r1 w1 e1
    split
    rename_i r2 w2 e2
    rw [e1] at hrd
    simp only [] at hrd
    rw [e2] at hrd
    simp only [] at hrd
    subst hrd
    have hcond : ¬ (to_size_t rd.ret ≠ 1 ∨ sync_byte rd ≠ SYNC_VAL) := by
      rw [(sync_byte_eq rd hret).mpr hbyte, hs.mpr hret]; simp
    rw [if_neg hcond]
    clear hs h1 hcond
    repeat' split
    all_goals simp [bail]
  · intro pipenum childpid
    clear hs h1 hrd
    unfold start_child_rest
    split
    rename_i r1 w1 e1
    split
    rename_i r2 w2 e2
    have t1 := (sys_eq e1).1
    have t2 := (sys_eq e2).1
    split
    · simp [bail, t2, t1]
    · split
      · split
        rename_i r3 w3 e3
        have t3 := (sys_eq e3).1
        simp [bail, t3, t2, t1]
      · split
        rename_i r3 w3 e3
        have t3 := (sys_eq e3).1
        split
        · split
          rename_i r4 w4 e4
          have t4 := (sys_eq e4).1
          simp [bail, t4, t3, t2, t1]
        · simp [t3, t2, t1]

theorem child_gated_on_sentinel_witness :
    nsexec_child (demoKernel [7] [] []) world0 nlconfig_zero 3 4
      = (.exit 21 "failed to read sync byte from parent",
         (sys (demoKernel [7] [] []) (sys (demoKernel [7] [] []) world0 (.close 4)).2
           (.read 3 1)).2) ∧
    ((1 : Int) = 1 ∧ read_bytes ⟨1, 0, [SYNC_VAL]⟩ 1 = [SYNC_VAL]) :=
  ⟨(child_gated_on_sentinel (demoKernel [7] [] []) world0 nlconfig_zero 3 4
      ⟨1, 0, [7]⟩ (by decide) (by decide) (by decide)).1 (by decide),
   (child_gated_on_sentinel (demoKernel [SYNC_VAL] [] []) world0 nlconfig_zero 3 4
      ⟨1, 0, [SYNC_VAL]⟩ (by decide) (by decide) (by decide)).2.2.1 (by decide)⟩

/-! ### Effects of a trace -/

theorem getD_append_len (pre l : List Nat) (i d : Nat) :
    (pre ++ l).getD (pre.length + i) d = l.getD i d := by
  induction pre with
  | nil => simp
  | cons a pre ih =>
    have e : (a :: pre).length + i = (pre.length + i) + 1 := by simp; omega
    rw [e]
    simpa using ih

theorem load16_append (pre l : List Nat) (i : Nat) :
    load16 (pre ++ l) (pre.length + i) = load16 l i := by
  unfold load16
  have e : pre.length + i + 1 = pre.length + (i + 1) := by omega
  rw [getD_append_len, e, getD_append_len]
  simp only [List.length_append]
  by_cases h : i + 2 ≤ l.length
  · rw [if_pos h, if_pos (by omega)]
  · rw [if_neg h, if_neg (by omega)]

theorem readint32_append (pre l : List Nat) (i : Nat) :
    readint32 (pre ++ l) (pre.length + i) = readint32 l i := by
  unfold readint32
  have e1 : pre.length + i + 1 = pre.length + (i + 1) := by omega
  have e2 : pre.length + i + 2 = pre.length + (i + 2) := by omega
  have e3 : pre.length + i + 3 = pre.length + (i + 3) := by omega
  rw [getD_append_len, e1, getD_append_len, e2, getD_append_len, e3, getD_append_len]
  simp only [List.length_append]
  by_cases h : i + 4 ≤ l.length
  · rw [if_pos h, if_pos (by omega)]
  · rw [if_neg h, if_neg (by omega)]

theorem readint8_append (pre l : List Nat) (i : Nat) :
    readint8 (pre ++ l) (pre.length + i) = readint8 l i := by
  unfold readint8
  rw [getD_append_len]
  simp only [List.length_append]
  by_cases h : i + 1 ≤ l.length
  · rw [if_pos h, if_pos (by omega)]
  · rw [if_neg h, if_neg (by omega)]

theorem frame_length (ty : Nat) (val : List Nat) :
    (frame ty val).length = (val.length + 3) / 4 * 4 + 4 := by
  simp [frame, le16, pad4]
  omega

theorem nla_align_eq (n : Nat) (h : n < 65536) : NLA_ALIGN n = (n + 3) / 4 * 4 := by
  have h1 := land_mask ((n + 4 - 1) % 2 ^ 64) (Nat.mod_lt _ (by norm_num))
  simp only [NLA_ALIGN, NLA_ALIGNTO, SIZE_MOD]
  rw [h1]
  omega

/-- One iteration of the walk on a well-formed frame whose case of the switch
succeeds. -/
theorem nl_attr_frame_ok (k : Kernel) (w w' : World) (config c' : nlconfig_t)
    (pre post val : List Nat) (ty : Nat)
    (hdata : config.data = pre ++ (frame ty val ++ post))
    (hty : ty < 65536) (hlen : 4 + val.length < 65536) (hpre : pre.length < 2 ^ 32)
    (hsw : nl_switch k { w with visited := w.visited ++ [⟨pre.length, 4 + val.length, ty⟩] }
      config ty val.length (pre.length + 4) = (.ok c', w')) :
    nl_attr k w config pre.length = (.ok (c', pre.length + (frame ty val).length), w') := by
  have hL : load16 config.data pre.length = some (4 + val.length) := by
    have := load16_append pre (frame ty val ++ post) 0
    rw [Nat.add_zero] at this
    rw [hdata, this]
    simp [frame, le16, load16]
    omega
  have hT : load16 config.data (pre.length + 2) = some ty := by
    rw [hdata, load16_append]
    simp [frame, le16, load16]
    omega
  unfold nl_attr
  rw [hL, hT]
  dsimp only
  have e1 : (4 + val.length + SIZE_MOD - NLA_HDRLEN) % SIZE_MOD = val.length := by
    simp only [SIZE_MOD, NLA_HDRLEN]; omega
  have e2 : (pre.length + NLA_HDRLEN) % SIZE_MOD = pre.length + 4 := by
    simp only [SIZE_MOD, NLA_HDRLEN]; omega
  rw [e1, e2, hsw]
  simp only []
  rw [nla_align_eq _ (by omega), frame_length]
  have e3 : (pre.length + 4 + (val.length + 3) / 4 * 4) % SIZE_MOD
      = pre.length + ((val.length + 3) / 4 * 4 + 4) := by
    simp only [SIZE_MOD]; omega
  rw [e3]

theorem nl_loop_step (k : Kernel) (size fuel : Nat) (w w' : World) (config c' : nlconfig_t)
    (current cur' : Nat) (hlt : current < size)
    (h : nl_attr k w config current = (.ok (c', cur'), w')) :
    nl_loop k size (fuel + 1) w config current = nl_loop k size fuel w' c' cur' := by
  rw [nl_loop, if_pos hlt, h]

theorem nl_loop_done (k : Kernel) (size fuel : Nat) (w : World) (config : nlconfig_t)
    (current : Nat) (hge : ¬ current < size) :
    nl_loop k size fuel w config current = (.ok config, w) := by
  cases fuel <;> simp [nl_loop, hge]

theorem map_mod_id (l : List Nat) (h : ∀ b ∈ l, b < 256) : l.map (· % 256) = l := by
  induction l with
  | nil => rfl
  | cons a l ih =>
    simp only [List.map_cons]
    rw [ih (fun b hb => h b (List.mem_cons_of_mem _ hb)),
      Nat.mod_eq_of_lt (h a (List.mem_cons_self _ _))]

theorem frame_bytes (ty : Nat) (val : List Nat) (h : ∀ b ∈ val, b < 256) :
    ∀ b ∈ frame ty val, b < 256 := by
  intro b hb
  simp only [frame, le16, pad4, List.mem_append, List.mem_cons, List.mem_singleton,
    List.not_mem_nil, or_false, List.mem_replicate] at hb
  rcases hb with ((hb | hb) | hb) | hb
  · rcases hb with rfl | rfl <;> omega
  · rcases hb with rfl | rfl <;> omega
  · exact h b hb
  · omega

theorem to_size_t_natCast (n : Nat) (h : n < 18446744073709551616) :
    to_size_t (n : Int) = n := by
  unfold to_size_t
  omega

theorem hdr_type (ty flags seq pid : Nat) (P : List Nat) (h : ty < 65536) :
    (nlmsg_hdr ty flags seq pid P).getD 4 0 + 256 * (nlmsg_hdr ty flags seq pid P).getD 5 0
      = ty := by
  simp only [nlmsg_hdr, le32, le16, List.cons_append, List.nil_append, List.getD_cons_succ,
    List.getD_cons_zero]
  omega

theorem hdr_len (ty flags seq pid : Nat) (P : List Nat) (h : NLMSG_HDRLEN + P.length < 2 ^ 32) :
    (nlmsg_hdr ty flags seq pid P).getD 0 0 + 256 * (nlmsg_hdr ty flags seq pid P).getD 1 0
      + 65536 * (nlmsg_hdr ty flags seq pid P).getD 2 0
      + 16777216 * (nlmsg_hdr ty flags seq pid P).getD 3 0 = NLMSG_HDRLEN + P.length := by
  simp only [nlmsg_hdr, le32, le16, List.cons_append, List.nil_append, List.getD_cons_succ,
    List.getD_cons_zero]
  omega

/-- When the kernel delivers an INIT_MSG message in full, `nl_parse` reaches its
attribute walk on exactly the payload. -/
theorem nl_parse_delivered (fuel : Nat) (k : Kernel) (w : World) (fd : Int)
    (config : nlconfig_t) (flags seq pid : Nat) (P : List Nat)
    (hP : ∀ b ∈ P, b < 256) (hlen : NLMSG_HDRLEN + P.length < 2 ^ 32)
    (hk : Delivers k w fd (nlmsg_hdr INIT_MSG flags seq pid P) P) :
    nl_parse fuel k w fd config
      = nl_loop k P.length fuel
          (sys k (sys k (sys k w (.read fd NLMSG_HDRLEN)).2 (.malloc P.length)).2
            (.read fd P.length)).2
          { config with data := P, consolefd := -1 } 0 := by
  obtain ⟨h1, h2, h3, h4, h5⟩ := hk
  unfold nl_parse
  simp only []
  have hs1 : to_size_t (sys k w (.read fd NLMSG_HDRLEN)).1.ret = NLMSG_HDRLEN := by
    rw [h1]; rfl
  rw [if_neg (by rw [hs1]; simp)]
  have hhdr : read_bytes (sys k w (.read fd NLMSG_HDRLEN)).1 NLMSG_HDRLEN
      = nlmsg_hdr INIT_MSG flags seq pid P := by
    unfold read_bytes
    rw [h2]
    have hl : (nlmsg_hdr INIT_MSG flags seq pid P).length = NLMSG_HDRLEN := by
      simp [nlmsg_hdr, le32, le16, NLMSG_HDRLEN]
    rw [← hl, List.take_length]
    apply map_mod_id
    intro b hb
    simp only [nlmsg_hdr, le32, le16, List.mem_append, List.mem_cons, List.mem_singleton,
      List.not_mem_nil, or_false] at hb
    omega
  rw [hhdr]
  rw [hdr_type INIT_MSG flags seq pid P (by decide), hdr_len INIT_MSG flags seq pid P hlen]
  have hsz : (NLMSG_HDRLEN + P.length + UINT_MOD - NLMSG_HDRLEN) % UINT_MOD = P.length := by
    simp only [NLMSG_HDRLEN, UINT_MOD] at *
    omega
  rw [hsz]
  rw [if_neg (by decide), if_neg (by simp), if_neg h3]
  have hs2 : to_size_t (sys k (sys k (sys k w (.read fd NLMSG_HDRLEN)).2 (.malloc P.length)).2
      (.read fd P.length)).1.ret = P.length := by
    rw [h4]
    apply to_size_t_natCast
    simp only [NLMSG_HDRLEN] at hlen
    omega
  rw [if_neg (by rw [hs2]; simp)]
  have hdata : read_bytes (sys k (sys k (sys k w (.read fd NLMSG_HDRLEN)).2
      (.malloc P.length)).2 (.read fd P.length)).1 P.length = P := by
    unfold read_bytes
    rw [h5, List.take_length]
    exact map_mod_id P hP
  rw [hdata]

theorem readint32_frame (pre post : List Nat) (ty c : Nat) (hc : c < 2 ^ 32) :
    readint32 (pre ++ (frame ty (le32 c) ++ post)) (pre.length + 4) = some c := by
  rw [readint32_append]
  have h : 4 + 4 ≤ (frame ty (le32 c) ++ post).length := by
    simp [frame, le16, le32]
  unfold readint32
  rw [if_pos h]
  simp only [frame, le16, le32, List.cons_append, List.nil_append,
    List.getD_cons_succ, List.getD_cons_zero]
  congr 1
  omega

theorem readint8_frame (pre post : List Nat) (ty s : Nat) :
    readint8 (pre ++ (frame ty [s] ++ post)) (pre.length + 4) = some s := by
  rw [readint8_append]
  have h : 4 + 1 ≤ (frame ty [s] ++ post).length := by
    simp [frame, le16]
  unfold readint8
  rw [if_pos h]
  simp only [frame, le16, List.cons_append, List.nil_append,
    List.getD_cons_succ, List.getD_cons_zero]

theorem slice_frame (pre post val : List Nat) (ty : Nat) :
    ((pre ++ (frame ty val ++ post)).drop (pre.length + 4)).take val.length = val := by
  rw [← List.drop_drop, List.drop_left]
  simp only [frame, le16, List.cons_append, List.nil_append, List.drop_succ_cons, List.drop_zero,
    List.append_assoc]
  exact List.take_left _ _

theorem to_int_small (n : Nat) (h : n < 65536) : to_int n = n := by
  unfold to_int
  rw [if_pos (by omega)]
  congr 1
  omega

theorem nl_switch_clone_flags (k : Kernel) (w : World) (config : nlconfig_t) (pl cur v : Nat)
    (h : readint32 config.data cur = some v) :
    nl_switch k w config CLONE_FLAGS_ATTR pl cur = (.ok { config with cloneflags := v }, w) := by
  unfold nl_switch
  rw [if_pos rfl, h]

theorem nl_switch_uidmap (k : Kernel) (w : World) (config : nlconfig_t) (pl cur : Nat) :
    nl_switch k w config UIDMAP_ATTR pl cur
      = (.ok { config with uidmap := some cur, uidmap_len := to_int pl }, w) := by
  unfold nl_switch
  rw [if_neg (by decide), if_neg (by decide), if_neg (by decide), if_pos rfl]

theorem nl_switch_gidmap (k : Kernel) (w : World) (config : nlconfig_t) (pl cur : Nat) :
    nl_switch k w config GIDMAP_ATTR pl cur
      = (.ok { config with gidmap := some cur, gidmap_len := to_int pl }, w) := by
  unfold nl_switch
  rw [if_neg (by decide), if_neg (by decide), if_neg (by decide), if_neg (by decide),
    if_pos rfl]

theorem nl_switch_setgroup (k : Kernel) (w : World) (config : nlconfig_t) (pl cur v : Nat)
    (h : readint8 config.data cur = some v) :
    nl_switch k w config SETGROUP_ATTR pl cur = (.ok { config with is_setgroup := v }, w) := by
  unfold nl_switch
  rw [if_neg (by decide), if_neg (by decide), if_neg (by decide), if_neg (by decide),
    if_neg (by decide), if_pos rfl, h]

/-- The walk over the four frames of `init_payload`. -/
theorem nl_loop_init_payload (k : Kernel) (w : World) (config : nlconfig_t) (fuel : Nat)
    (c s : Nat) (u g : List Nat) (hc : c < 2 ^ 32)
    (hul : 4 + u.length < 65536) (hgl : 4 + g.length < 65536)
    (hdata : config.data = init_payload c u g s) (hfuel : 4 ≤ fuel) :
    (nl_loop k (init_payload c u g s).length fuel w config 0).1
      = .ok { config with
                cloneflags := c,
                uidmap := some ((frame CLONE_FLAGS_ATTR (le32 c)).length + 4),
                uidmap_len := (u.length : Int),
                gidmap := some ((frame CLONE_FLAGS_ATTR (le32 c)
                  ++ frame UIDMAP_ATTR u).length + 4),
                gidmap_len := (g.length : Int),
                is_setgroup := s } := by
  obtain ⟨f, rfl⟩ : ∃ f, fuel = f + 1 + 1 + 1 + 1 := ⟨fuel - 4, by omega⟩
  have hl1 := frame_length CLONE_FLAGS_ATTR (le32 c)
  have hl2 := frame_length UIDMAP_ATTR u
  have hl3 := frame_length GIDMAP_ATTR g
  have hl4 := frame_length SETGROUP_ATTR [s]
  have hle : (le32 c).length = 4 := rfl
  have hP : (init_payload c u g s).length
      = (frame CLONE_FLAGS_ATTR (le32 c)).length + (frame UIDMAP_ATTR u).length
        + (frame GIDMAP_ATTR g).length + (frame SETGROUP_ATTR [s]).length := by
    simp only [init_payload, List.length_append]
  have hs1 : (0 : Nat) = ([] : List Nat).length := rfl
  · -- frame 1: clone flags
    rw [hs1]
    refine (congrArg Prod.fst (nl_loop_step k _ _ _ _ _ _ _ _ ?_ (nl_attr_frame_ok k _ _ _ _ []
      (frame UIDMAP_ATTR u ++ (frame GIDMAP_ATTR g ++ frame SETGROUP_ATTR [s])) (le32 c)
      CLONE_FLAGS_ATTR ?_ ?_ ?_ ?_ (nl_switch_clone_flags k _ _ _ _ c ?_)))).trans ?_
    · rw [hP, hl1]; simp
    · rw [hdata]; simp [init_payload]
    · decide
    · rw [hle]; decide
    · decide
    · rw [hdata]
      have := readint32_frame [] (frame UIDMAP_ATTR u ++ (frame GIDMAP_ATTR g
        ++ frame SETGROUP_ATTR [s])) CLONE_FLAGS_ATTR c hc
      simpa [init_payload] using this
    -- frame 2: uid map
    rw [← hs1, Nat.zero_add]
    refine (congrArg Prod.fst (nl_loop_step k _ _ _ _ _ _ _ _ ?_ (nl_attr_frame_ok k _ _ _ _
      (frame CLONE_FLAGS_ATTR (le32 c)) (frame GIDMAP_ATTR g ++ frame SETGROUP_ATTR [s]) u
      UIDMAP_ATTR ?_ ?_ hul ?_ (nl_switch_uidmap k _ _ _ _)))).trans ?_
    · rw [hP, hl1, hl2]; omega
    · simp only [hdata, init_payload, List.append_assoc]
    · decide
    · rw [hl1, hle]; decide
    -- frame 3: gid map
    rw [← List.length_append]
    refine (congrArg Prod.fst (nl_loop_step k _ _ _ _ _ _ _ _ ?_ (nl_attr_frame_ok k _ _ _ _
      (frame CLONE_FLAGS_ATTR (le32 c) ++ frame UIDMAP_ATTR u) (frame SETGROUP_ATTR [s]) g
      GIDMAP_ATTR ?_ ?_ hgl ?_ (nl_switch_gidmap k _ _ _ _)))).trans ?_
    · rw [List.length_append, hP, hl1, hl2, hl3]; omega
    · simp only [hdata, init_payload, List.append_assoc]
    · decide
    · rw [List.length_append, hl1, hl2, hle]; omega
    -- frame 4: setgroups flag
    rw [← List.length_append]
    refine (congrArg Prod.fst (nl_loop_step k _ _ _ _ _ _ _ _ ?_ (nl_attr_frame_ok k _ _ _ _
      (frame CLONE_FLAGS_ATTR (le32 c) ++ frame UIDMAP_ATTR u ++ frame GIDMAP_ATTR g) [] [s]
      SETGROUP_ATTR ?_ ?_ ?_ ?_ (nl_switch_setgroup k _ _ _ _ s ?_)))).trans ?_
    · simp only [List.length_append]; rw [hP, hl1, hl2, hl3, hl4]; omega
    · simp only [hdata, init_payload, List.append_assoc, List.append_nil]
    · decide
    · simp
    · simp only [List.length_append]; rw [hl1, hl2, hl3, hle]; omega
    · have := readint8_frame (frame CLONE_FLAGS_ATTR (le32 c) ++ frame UIDMAP_ATTR u
        ++ frame GIDMAP_ATTR g) [] SETGROUP_ATTR s
      simp only [List.append_nil] at this
      simp only [hdata, init_payload]
      exact this
    refine (congrArg Prod.fst (nl_loop_done k _ _ _ _ _ ?_)).trans ?_
    · simp only [List.length_append]; rw [hP]; omega
    rw [to_int_small _ (by omega), to_int_small _ (by omega)]

/-- C1. Round trip of the decoder. For clone flags c, uid-map bytes u, gid-map
bytes g and setgroups flag s, encoded as an INIT_MSG message whose payload is
the four frames (nla_len = 4 + value length, nla_type, value, zero padding to a
multiple of 4) for CLONE_FLAGS_ATTR, UIDMAP_ATTR, GIDMAP_ATTR and SETGROUP_ATTR
and delivered in full, `nl_parse` succeeds and yields a record with
cloneflags = c, uidmap = u with uidmap_len = |u|, gidmap = g with
gidmap_len = |g|, and is_setgroup = s. -/
theorem nl_parse_roundtrip (fuel : Nat) (k : Kernel) (w : World) (fd : Int)
    (config : nlconfig_t) (c s flags seq pid : Nat) (u g : List Nat)
    (hc : c < 2 ^ 32) (hs : s < 256) (hu : ∀ b ∈ u, b < 256) (hg : ∀ b ∈ g, b < 256)
    (hul : 4 + u.length < 65536) (hgl : 4 + g.length < 65536)
    (hk : Delivers k w fd (nlmsg_hdr INIT_MSG flags seq pid (init_payload c u g s))
      (init_payload c u g s))
    (hfuel : 4 ≤ fuel) :
    ∃ cfg, (nl_parse fuel k w fd config).1 = .ok cfg ∧
      cfg.cloneflags = c ∧
      cfg.uidmap_len = u.length ∧
      (∃ p, cfg.uidmap = some p ∧ (cfg.data.drop p).take u.length = u) ∧
      cfg.gidmap_len = g.length ∧
      (∃ p, cfg.gidmap = some p ∧ (cfg.data.drop p).take g.length = g) ∧
      cfg.is_setgroup = s := by
  have hbytes : ∀ b ∈ init_payload c u g s, b < 256 := by
    intro b hb
    simp only [init_payload, List.mem_append] at hb
    rcases hb with ((hb | hb) | hb) | hb
    · refine frame_bytes _ _ ?_ b hb
      intro x hx
      simp only [le32, List.mem_cons, List.mem_singleton, List.not_mem_nil, or_false] at hx
      omega
    · exact frame_bytes _ _ hu b hb
    · exact frame_bytes _ _ hg b hb
    · refine frame_bytes _ _ ?_ b hb
      intro x hx
      simp only [List.mem_singleton] at hx
      omega
  have hlen : NLMSG_HDRLEN + (init_payload c u g s).length < 2 ^ 32 := by
    have h1 := frame_length CLONE_FLAGS_ATTR (le32 c)
    have h2 := frame_length UIDMAP_ATTR u
    have h3 := frame_length GIDMAP_ATTR g
    have h4 := frame_length SETGROUP_ATTR [s]
    have hle : (le32 c).length = 4 := rfl
    have h1s : [s].length = 1 := rfl
    simp only [init_payload, List.length_append, NLMSG_HDRLEN]
    rw [h1, h2, h3, h4, hle, h1s]
    omega
  rw [nl_parse_delivered fuel k w fd config flags seq pid _ hbytes hlen hk]
  rw [nl_loop_init_payload k _ _ fuel c s u g hc hul hgl rfl hfuel]
  refine ⟨_, rfl, rfl, rfl, ⟨_, rfl, ?_⟩, rfl, ⟨_, rfl, ?_⟩, rfl⟩
  · have := slice_frame (frame CLONE_FLAGS_ATTR (le32 c))
      (frame GIDMAP_ATTR g ++ frame SETGROUP_ATTR [s]) u UIDMAP_ATTR
    simpa only [init_payload, List.append_assoc] using this
  · have := slice_frame (frame CLONE_FLAGS_ATTR (le32 c) ++ frame UIDMAP_ATTR u)
      (frame SETGROUP_ATTR [s]) g GIDMAP_ATTR
    simpa only [init_payload, List.append_assoc] using this

/-! ### strtok_r on a comma-separated list -/

theorem strcspn_comma_prefix (p t : List Nat) (c : Nat) (hp : ∀ b ∈ p, b ≠ 44 ∧ b ≠ 0)
    (hc : c = 44 ∨ c = 0) : strcspn_comma (p ++ c :: t) = p.length := by
  induction p with
  | nil => simp [strcspn_comma, hc]
  | cons b p ih =>
    have hb := hp b (List.mem_cons_self _ _)
    have : ¬ (b = 44 ∨ b = 0) := by rintro (h | h); exact hb.1 h; exact hb.2 h
    simp only [List.cons_append, strcspn_comma, this, if_false, List.length_cons,
      List.append_eq]
    rw [ih (fun x hx => hp x (List.mem_cons_of_mem _ hx))]

theorem scanNul_prefix (p t : List Nat) (hp : ∀ b ∈ p, b ≠ 0) :
    scanNul (p ++ 0 :: t) = some p.length := by
  induction p with
  | nil => simp [scanNul]
  | cons b p ih =>
    have hb := hp b (List.mem_cons_self _ _)
    simp only [List.cons_append, scanNul, hb, if_false, List.length_cons, List.append_eq]
    rw [ih (fun x hx => hp x (List.mem_cons_of_mem _ hx))]
    rfl

theorem cstr_at (pre p t : List Nat) (hp : ∀ b ∈ p, b ≠ 0) :
    cstr (pre ++ (p ++ 0 :: t)) pre.length = some p := by
  unfold cstr strlen
  rw [List.drop_left, scanNul_prefix p t hp]
  simp

theorem strlen_at (pre p t : List Nat) (hp : ∀ b ∈ p, b ≠ 0) :
    strlen (pre ++ (p ++ 0 :: t)) pre.length = some p.length := by
  unfold strlen
  rw [List.drop_left, scanNul_prefix p t hp]

theorem strspn_comma_zero (p t : List Nat) (hp : valid_path p) :
    strspn_comma (p ++ t) = 0 := by
  obtain ⟨hne, hb⟩ := hp
  cases p with
  | nil => exact absurd rfl hne
  | cons b p =>
    have := (hb b (List.mem_cons_self _ _)).1
    simp [strspn_comma, this]

theorem getElem?_at (pre l : List Nat) (i : Nat) :
    (pre ++ l)[pre.length + i]? = l[i]? := by
  rw [List.getElem?_append_right (by omega)]
  congr 1
  omega

theorem getElem?_len (p t : List Nat) (c : Nat) : (p ++ c :: t)[p.length]? = some c := by
  rw [List.getElem?_append_right (le_refl _)]
  simp

/-- A token followed by a comma: the comma becomes NUL and the saved pointer
moves past it. -/
theorem strtok_r_comma (pre p t : List Nat) (hp : valid_path p) :
    strtok_r (pre ++ (p ++ 44 :: t)) pre.length
      = some (pre ++ (p ++ 0 :: t), some pre.length, pre.length + p.length + 1) := by
  have hz := strspn_comma_zero p (44 :: t) hp
  have hc := strcspn_comma_prefix p t 44 hp.2 (Or.inl rfl)
  obtain ⟨hne, hb⟩ := hp
  obtain ⟨b, p', rfl⟩ := List.exists_cons_of_ne_nil hne
  have hb0 := (hb b (List.mem_cons_self _ _)).2
  unfold strtok_r
  simp only [List.get?_eq_getElem?, List.drop_left, hz, Nat.add_zero]
  have h1 : (pre ++ (b :: p' ++ 44 :: t))[pre.length]? = some b := by
    have := getElem?_at pre (b :: p' ++ 44 :: t) 0
    simpa using this
  rw [h1]
  simp only [hb0, if_false, hc]
  have h2 : (pre ++ (b :: p' ++ 44 :: t))[pre.length + (b :: p').length]? = some 44 := by
    rw [getElem?_at]
    exact getElem?_len _ _ _
  rw [h2]
  simp only [show (44 : Nat) ≠ 0 by decide, if_false]
  congr 2
  rw [List.set_append_right _ _ (by omega)]
  congr 1
  simp

/-- The last token: it ends at the terminator, which is where the saved pointer
stays. -/
theorem strtok_r_last (pre p t : List Nat) (hp : valid_path p) :
    strtok_r (pre ++ (p ++ 0 :: t)) pre.length
      = some (pre ++ (p ++ 0 :: t), some pre.length, pre.length + p.length) := by
  have hz := strspn_comma_zero p (0 :: t) hp
  have hc := strcspn_comma_prefix p t 0 hp.2 (Or.inr rfl)
  obtain ⟨hne, hb⟩ := hp
  obtain ⟨b, p', rfl⟩ := List.exists_cons_of_ne_nil hne
  have hb0 := (hb b (List.mem_cons_self _ _)).2
  unfold strtok_r
  simp only [List.get?_eq_getElem?, List.drop_left, hz, Nat.add_zero]
  have h1 : (pre ++ (b :: p' ++ 0 :: t))[pre.length]? = some b := by
    have := getElem?_at pre (b :: p' ++ 0 :: t) 0
    simpa using this
  rw [h1]
  simp only [hb0, if_false, hc]
  have h2 : (pre ++ (b :: p' ++ 0 :: t))[pre.length + (b :: p').length]? = some 0 := by
    rw [getElem?_at]
    exact getElem?_len _ _ _
  rw [h2]
  simp

/-- At the terminator there is no further token. -/
theorem strtok_r_end (pre t : List Nat) :
    strtok_r (pre ++ 0 :: t) pre.length = some (pre ++ 0 :: t, none, pre.length) := by
  unfold strtok_r
  simp only [List.get?_eq_getElem?, List.drop_left, strspn_comma, show ¬ (0 : Nat) = 44 by decide,
    if_false, Nat.add_zero]
  have h1 : (pre ++ 0 :: t)[pre.length]? = some 0 := by
    have := getElem?_at pre (0 :: t) 0
    simpa using this
  rw [h1]
  simp

theorem ns_value_single (p : List Nat) : ns_value [p] = p ++ [0] := by
  simp [ns_value, List.intercalate]

theorem ns_value_cons_cons (p q : List Nat) (r : List (List Nat)) :
    ns_value (p :: q :: r) = p ++ 44 :: ns_value (q :: r) := by
  simp [ns_value, List.intercalate]

/-- The first token of a list of paths. -/
theorem strtok_r_first (pre post p : List Nat) (rest : List (List Nat)) (hp : valid_path p) :
    strtok_r (pre ++ (ns_value (p :: rest) ++ post)) pre.length
      = some (pre ++ (p ++ 0 :: ns_rest rest post), some pre.length,
          pre.length + p.length + ns_skip rest) := by
  cases rest with
  | nil =>
    have := strtok_r_last pre p post hp
    simpa [ns_value_single, ns_rest, ns_skip] using this
  | cons q r =>
    have := strtok_r_comma pre p (ns_value (q :: r) ++ post) hp
    simpa [ns_value_cons_cons, ns_rest, ns_skip] using this

/-- The next call of `strtok_r`, from the saved pointer. -/
theorem strtok_r_next (pre post p q : List Nat) (r : List (List Nat)) (hq : valid_path q) :
    strtok_r (pre ++ (p ++ 0 :: ns_rest (q :: r) post)) (pre.length + p.length + ns_skip (q :: r))
      = some ((pre ++ p ++ [0]) ++ (q ++ 0 :: ns_rest r post), some (pre ++ p ++ [0]).length,
          (pre ++ p ++ [0]).length + q.length + ns_skip r) := by
  have := strtok_r_first (pre ++ p ++ [0]) post q r hq
  have e : pre ++ (p ++ 0 :: ns_rest (q :: r) post)
      = (pre ++ p ++ [0]) ++ (ns_value (q :: r) ++ post) := by
    simp [ns_rest]
  have e2 : pre.length + p.length + ns_skip (q :: r) = (pre ++ p ++ [0]).length := by
    simp [ns_skip]
    omega
  rw [e, e2]
  exact this

theorem strtok_r_stop (pre post p : List Nat) :
    strtok_r (pre ++ (p ++ 0 :: ns_rest [] post)) (pre.length + p.length + ns_skip [])
      = some (pre ++ (p ++ 0 :: post), none, pre.length + p.length) := by
  have := strtok_r_end (pre ++ p) post
  simpa [ns_rest, ns_skip] using this

theorem open_calls_append (a b : List Event) :
    open_calls (a ++ b) = open_calls a ++ open_calls b := by
  induction a with
  | nil => rfl
  | cons e a ih => simp [open_calls, ih]

theorem setns_calls_append (a b : List Event) :
    setns_calls (a ++ b) = setns_calls a ++ setns_calls b := by
  induction a with
  | nil => rfl
  | cons e a ih => simp [setns_calls, ih]

theorem write_calls_append (a b : List Event) :
    write_calls (a ++ b) = write_calls a ++ write_calls b := by
  induction a with
  | nil => rfl
  | cons e a ih => simp [write_calls, ih]

/-- One pass through the body of the do-while loop, with the three calls it
makes written out. -/
theorem ns_open_loop_unfold (k : Kernel) (f : Nat) (w : World) (m path : List Nat)
    (ns sp : Nat) (ents : List (Int × Nat)) (hc : cstr m ns = some path) :
    ns_open_loop k (f + 1) w m ns sp ents =
      if (sys k (sys k (sys k w (.realloc ((ents.length + 1) * 4))).2
            (.realloc ((ents.length + 1) * 8))).2 (.open_ (.bytes path) O_RDONLY)).1.ret < 0 then
        bail 16 "failed to open %s"
          (sys k (sys k (sys k w (.realloc ((ents.length + 1) * 4))).2
            (.realloc ((ents.length + 1) * 8))).2 (.open_ (.bytes path) O_RDONLY)).2
      else if (sys k w (.realloc ((ents.length + 1) * 4))).1.ret = 0 ∨
          (sys k (sys k w (.realloc ((ents.length + 1) * 4))).2
            (.realloc ((ents.length + 1) * 8))).1.ret = 0 then
        (.undef, (sys k (sys k (sys k w (.realloc ((ents.length + 1) * 4))).2
            (.realloc ((ents.length + 1) * 8))).2 (.open_ (.bytes path) O_RDONLY)).2)
      else
        match strtok_r m sp with
        | none => (.undef, (sys k (sys k (sys k w (.realloc ((ents.length + 1) * 4))).2
            (.realloc ((ents.length + 1) * 8))).2 (.open_ (.bytes path) O_RDONLY)).2)
        | some (m', none, _) =>
          (.ok (m', ents ++ [((sys k (sys k (sys k w (.realloc ((ents.length + 1) * 4))).2
            (.realloc ((ents.length + 1) * 8))).2 (.open_ (.bytes path) O_RDONLY)).1.ret, ns)]),
           (sys k (sys k (sys k w (.realloc ((ents.length + 1) * 4))).2
            (.realloc ((ents.length + 1) * 8))).2 (.open_ (.bytes path) O_RDONLY)).2)
        | some (m', some ns', sp') =>
          ns_open_loop k f
            (sys k (sys k (sys k w (.realloc ((ents.length + 1) * 4))).2
              (.realloc ((ents.length + 1) * 8))).2 (.open_ (.bytes path) O_RDONLY)).2
            m' ns' sp'
            (ents ++ [((sys k (sys k (sys k w (.realloc ((ents.length + 1) * 4))).2
              (.realloc ((ents.length + 1) * 8))).2 (.open_ (.bytes path) O_RDONLY)).1.ret, ns)]) := by
  rw [ns_open_loop, hc]

/-- The do-while loop over the tokens: it opens the paths in order and stops at
the first open that fails. -/
theorem ns_open_loop_shape (k : Kernel) (hre : ∀ h n, (k h (.realloc n)).ret ≠ 0) :
    ∀ (rest : List (List Nat)) (p pre post : List Nat) (w : World) (ents : List (Int × Nat))
      (fuel : Nat),
      valid_path p → (∀ q ∈ rest, valid_path q) → rest.length < fuel →
      ∃ T, (ns_open_loop k fuel w (pre ++ (p ++ 0 :: ns_rest rest post)) pre.length
            (pre.length + p.length + ns_skip rest) ents).2.trace = w.trace ++ T ∧
        setns_calls T = [] ∧ write_calls T = [] ∧
        (∀ x ∈ open_calls T, ∃ h, x.2 = (k h (.open_ x.1 O_RDONLY)).ret) ∧
        ((∃ m' new fds, (ns_open_loop k fuel w (pre ++ (p ++ 0 :: ns_rest rest post)) pre.length
              (pre.length + p.length + ns_skip rest) ents).1 = .ok (m', ents ++ new) ∧
            open_calls T = ((p :: rest).map Path.bytes).zip fds ∧
            fds.length = rest.length + 1 ∧ new.map Prod.fst = fds ∧ ∀ x ∈ fds, 0 ≤ x) ∨
         ((ns_open_loop k fuel w (pre ++ (p ++ 0 :: ns_rest rest post)) pre.length
              (pre.length + p.length + ns_skip rest) ents).1 = .exit 16 "failed to open %s" ∧
            ∃ good bad later fds badret, p :: rest = good ++ bad :: later ∧
              open_calls T = (good.map Path.bytes).zip fds ++ [(.bytes bad, badret)] ∧
              fds.length = good.length ∧ (∀ x ∈ fds, 0 ≤ x) ∧ badret < 0)) := by
  intro rest
  induction rest with
  | nil =>
    intro p pre post w ents fuel hp _ hfuel
    obtain ⟨f, rfl⟩ : ∃ f, fuel = f + 1 := ⟨fuel - 1, by simp at hfuel; omega⟩
    have hc : cstr (pre ++ (p ++ 0 :: ns_rest [] post)) pre.length = some p :=
      cstr_at pre p _ (fun b hb => (hp.2 b hb).2)
    rw [ns_open_loop_unfold k f w _ p _ _ ents hc]
    rcases e1 : sys k w (.realloc ((ents.length + 1) * 4)) with ⟨r1, w1⟩
    dsimp only
    rcases e2 : sys k w1 (.realloc ((ents.length + 1) * 8)) with ⟨r2, w2⟩
    dsimp only
    rcases e3 : sys k w2 (.open_ (.bytes p) O_RDONLY) with ⟨r3, w3⟩
    dsimp only
    obtain ⟨t1, _, _, k1⟩ := sys_eq e1
    obtain ⟨t2, _, _, k2⟩ := sys_eq e2
    obtain ⟨t3, _, _, k3⟩ := sys_eq e3
    have hT : w3.trace = w.trace ++ [⟨.realloc ((ents.length + 1) * 4), r1⟩,
        ⟨.realloc ((ents.length + 1) * 8), r2⟩, ⟨.open_ (.bytes p) O_RDONLY, r3⟩] := by
      rw [t3, t2, t1]; simp
    have hk : ∀ x ∈ open_calls [(⟨.realloc ((ents.length + 1) * 4), r1⟩ : Event),
        ⟨.realloc ((ents.length + 1) * 8), r2⟩, ⟨.open_ (.bytes p) O_RDONLY, r3⟩],
        ∃ h, x.2 = (k h (.open_ x.1 O_RDONLY)).ret := by
      intro x hx
      simp [open_calls] at hx
      subst hx
      exact ⟨_, by rw [k3]⟩
    by_cases hneg : r3.ret < 0
    · rw [if_pos hneg]
      exact ⟨_, hT, by simp [setns_calls], by simp [write_calls], hk, Or.inr
        ⟨rfl, [], p, [], [], r3.ret, rfl, by simp [open_calls], rfl, by simp, hneg⟩⟩
    · rw [if_neg hneg]
      have h1 : r1.ret ≠ 0 := by rw [k1]; exact hre _ _
      have h2 : r2.ret ≠ 0 := by rw [k2]; exact hre _ _
      rw [if_neg (by rintro (h | h); exact h1 h; exact h2 h)]
      rw [strtok_r_stop]
      dsimp only
      exact ⟨_, hT, by simp [setns_calls], by simp [write_calls], hk, Or.inl
        ⟨_, [(r3.ret, pre.length)], [r3.ret], rfl, by simp [open_calls], rfl, rfl,
          by intro x hx; simp at hx; omega⟩⟩
  | cons q r ih =>
    intro p pre post w ents fuel hp hrest hfuel
    obtain ⟨f, rfl⟩ : ∃ f, fuel = f + 1 := ⟨fuel - 1, by simp at hfuel; omega⟩
    have hq : valid_path q := hrest q (List.mem_cons_self _ _)
    have hr : ∀ x ∈ r, valid_path x := fun x hx => hrest x (List.mem_cons_of_mem _ hx)
    have hc : cstr (pre ++ (p ++ 0 :: ns_rest (q :: r) post)) pre.length = some p :=
      cstr_at pre p _ (fun b hb => (hp.2 b hb).2)
    rw [ns_open_loop_unfold k f w _ p _ _ ents hc]
    rcases e1 : sys k w (.realloc ((ents.length + 1) * 4)) with ⟨r1, w1⟩
    dsimp only
    rcases e2 : sys k w1 (.realloc ((ents.length + 1) * 8)) with ⟨r2, w2⟩
    dsimp only
    rcases e3 : sys k w2 (.open_ (.bytes p) O_RDONLY) with ⟨r3, w3⟩
    dsimp only
    obtain ⟨t1, _, _, k1⟩ := sys_eq e1
    obtain ⟨t2, _, _, k2⟩ := sys_eq e2
    obtain ⟨t3, _, _, k3⟩ := sys_eq e3
    have hT : w3.trace = w.trace ++ [⟨.realloc ((ents.length + 1) * 4), r1⟩,
        ⟨.realloc ((ents.length + 1) * 8), r2⟩, ⟨.open_ (.bytes p) O_RDONLY, r3⟩] := by
      rw [t3, t2, t1]; simp
    have hk : ∀ x ∈ open_calls [(⟨.realloc ((ents.length + 1) * 4), r1⟩ : Event),
        ⟨.realloc ((ents.length + 1) * 8), r2⟩, ⟨.open_ (.bytes p) O_RDONLY, r3⟩],
        ∃ h, x.2 = (k h (.open_ x.1 O_RDONLY)).ret := by
      intro x hx
      simp [open_calls] at hx
      subst hx
      exact ⟨_, by rw [k3]⟩
    by_cases hneg : r3.ret < 0
    · rw [if_pos hneg]
      exact ⟨_, hT, by simp [setns_calls], by simp [write_calls], hk, Or.inr
        ⟨rfl, [], p, q :: r, [], r3.ret, rfl, by simp [open_calls], rfl, by simp, hneg⟩⟩
    · rw [if_neg hneg]
      have h1 : r1.ret ≠ 0 := by rw [k1]; exact hre _ _
      have h2 : r2.ret ≠ 0 := by rw [k2]; exact hre _ _
      rw [if_neg (by rintro (h | h); exact h1 h; exact h2 h)]
      rw [strtok_r_next pre post p q r hq]
      dsimp only
      obtain ⟨T', hT', hs', hw', hk', hcase⟩ := ih q (pre ++ p ++ [0]) post w3
        (ents ++ [(r3.ret, pre.length)]) f hq hr (by simp at hfuel; omega)
      generalize ns_open_loop k f w3 (pre ++ p ++ [0] ++ (q ++ 0 :: ns_rest r post))
        (pre ++ p ++ [0]).length ((pre ++ p ++ [0]).length + q.length + ns_skip r)
        (ents ++ [(r3.ret, pre.length)]) = res at hT' hcase ⊢
      refine ⟨[⟨.realloc ((ents.length + 1) * 4), r1⟩,
        ⟨.realloc ((ents.length + 1) * 8), r2⟩, ⟨.open_ (.bytes p) O_RDONLY, r3⟩] ++ T', ?_, ?_,
        ?_, ?_, ?_⟩
      · rw [hT', hT]; simp
      · rw [setns_calls_append, hs']; simp [setns_calls]
      · rw [write_calls_append, hw']; simp [write_calls]
      · intro x hx
        rw [open_calls_append] at hx
        simp only [List.mem_append] at hx
        rcases hx with hx | hx
        · exact hk x hx
        · exact hk' x hx
      · rcases hcase with ⟨m', new, fds, hok, hopen, hlen, hnew, hpos⟩ |
          ⟨hex, good, bad, later, fds, badret, hsplit, hopen, hlen, hpos, hbad⟩
        · left
          refine ⟨m', (r3.ret, pre.length) :: new, r3.ret :: fds, ?_, ?_, ?_, ?_, ?_⟩
          · rw [hok]; simp
          · rw [open_calls_append, hopen]; simp [open_calls]
          · simp [hlen]
          · simp [hnew]
          · intro x hx
            simp only [List.mem_cons] at hx
            rcases hx with rfl | hx
            · omega
            · exact hpos x hx
        · right
          refine ⟨hex, p :: good, bad, later, r3.ret :: fds, badret, ?_, ?_, ?_, ?_, hbad⟩
          · rw [hsplit]; simp
          · rw [open_calls_append, hopen]; simp [open_calls]
          · simp [hlen]
          · intro x hx
            simp only [List.mem_cons] at hx
            rcases hx with rfl | hx
            · omega
            · exact hpos x hx

/-- The for loop over the opened descriptors: setns in order, stopping at the
first join that fails. -/
theorem ns_setns_loop_shape (k : Kernel) :
    ∀ (ents : List (Int × Nat)) (w : World),
      ∃ T, (ns_setns_loop k w ents).2.trace = w.trace ++ T ∧
        open_calls T = [] ∧ write_calls T = [] ∧
        (((ns_setns_loop k w ents).1 = .ok () ∧
            (setns_calls T).map Prod.fst = ents.map Prod.fst ∧ ∀ x ∈ setns_calls T, 0 ≤ x.2) ∨
         ((ns_setns_loop k w ents).1 = .exit 17 "failed to setns to %s" ∧
            ∃ good bad, setns_calls T = good ++ [bad] ∧
              (good ++ [bad]).map Prod.fst = (ents.map Prod.fst).take (good.length + 1) ∧
              good.length < ents.length ∧ (∀ x ∈ good, 0 ≤ x.2) ∧ bad.2 < 0)) := by
  intro ents
  induction ents with
  | nil =>
    intro w
    exact ⟨[], by simp [ns_setns_loop], rfl, rfl, Or.inl ⟨rfl, rfl, by simp [setns_calls]⟩⟩
  | cons e ents ih =>
    intro w
    obtain ⟨fd, p⟩ := e
    unfold ns_setns_loop
    split
    rename_i r1 w1 e1
    obtain ⟨t1, _, _, _⟩ := sys_eq e1
    by_cases hneg : r1.ret < 0
    · rw [if_pos hneg]
      refine ⟨[⟨.setns fd 0, r1⟩], by simp [bail, t1], by simp [open_calls],
        by simp [write_calls], Or.inr ⟨rfl, [], (fd, r1.ret), ?_, ?_, ?_, ?_, hneg⟩⟩
      · simp [setns_calls]
      · simp
      · simp
      · simp
    · rw [if_neg hneg]
      split
      rename_i r2 w2 e2
      obtain ⟨t2, _, _, _⟩ := sys_eq e2
      obtain ⟨T', hT', ho', hw', hcase⟩ := ih w2
      generalize ns_setns_loop k w2 ents = res at hT' hcase ⊢
      refine ⟨[⟨.setns fd 0, r1⟩, ⟨.close fd, r2⟩] ++ T', ?_, ?_, ?_, ?_⟩
      · rw [hT', t2, t1]; simp
      · rw [open_calls_append, ho']; simp [open_calls]
      · rw [write_calls_append, hw']; simp [write_calls]
      · rcases hcase with ⟨hok, hmap, hpos⟩ | ⟨hex, good, bad, hsplit, hmap, hlen, hpos, hbad⟩
        · left
          refine ⟨hok, ?_, ?_⟩
          · rw [setns_calls_append]; simp [setns_calls, hmap]
          · intro x hx
            rw [setns_calls_append] at hx
            simp [setns_calls] at hx
            rcases hx with rfl | hx
            · simp; omega
            · exact hpos x (by simpa using hx)
        · right
          refine ⟨hex, (fd, r1.ret) :: good, bad, ?_, ?_, ?_, ?_, hbad⟩
          · rw [setns_calls_append, hsplit]; simp [setns_calls]
          · simp at hmap ⊢
            exact hmap
          · simp; omega
          · intro x hx
            simp only [List.mem_cons] at hx
            rcases hx with rfl | hx
            · simp; omega
            · exact hpos x hx

theorem ns_value_length (rest : List (List Nat)) : rest.length ≤ (ns_value rest).length := by
  induction rest with
  | nil => simp
  | cons p rest ih =>
    cases rest with
    | nil => simp [ns_value_single]
    | cons q r =>
      rw [ns_value_cons_cons]
      simp at ih ⊢
      omega

theorem ns_rest_length (rest : List (List Nat)) (post : List Nat) :
    rest.length ≤ (ns_rest rest post).length := by
  cases rest with
  | nil => simp [ns_rest]
  | cons q r =>
    have := ns_value_length (q :: r)
    simp [ns_rest] at this ⊢
    omega

/-- The NS_PATHS_ATTR case on a list of valid paths: first every open, in the
order of the list and up to the first one that fails; then, if all opens
succeeded, every setns, in the same order and up to the first one that fails. -/
theorem ns_paths_shape (k : Kernel) (hre : ∀ h n, (k h (.realloc n)).ret ≠ 0)
    (p : List Nat) (rest : List (List Nat)) (pre post : List Nat) (w : World)
    (hp : valid_path p) (hrest : ∀ q ∈ rest, valid_path q) :
    ∃ Topen Tset,
      (ns_paths k w (pre ++ (ns_value (p :: rest) ++ post)) pre.length).2.trace
        = w.trace ++ (Topen ++ Tset) ∧
      setns_calls Topen = [] ∧ write_calls Topen = [] ∧
      open_calls Tset = [] ∧ write_calls Tset = [] ∧
      (∀ x ∈ open_calls Topen, ∃ h, x.2 = (k h (.open_ x.1 O_RDONLY)).ret) ∧
      ((∃ fds, open_calls Topen = ((p :: rest).map Path.bytes).zip fds ∧
          fds.length = rest.length + 1 ∧ (∀ x ∈ fds, 0 ≤ x) ∧
          ((∃ m', (ns_paths k w (pre ++ (ns_value (p :: rest) ++ post)) pre.length).1 = .ok m' ∧
              (setns_calls Tset).map Prod.fst = fds ∧ ∀ x ∈ setns_calls Tset, 0 ≤ x.2) ∨
           ((ns_paths k w (pre ++ (ns_value (p :: rest) ++ post)) pre.length).1
                = .exit 17 "failed to setns to %s" ∧
              ∃ good bad, setns_calls Tset = good ++ [bad] ∧
                (good ++ [bad]).map Prod.fst = fds.take (good.length + 1) ∧
                good.length < rest.length + 1 ∧ (∀ x ∈ good, 0 ≤ x.2) ∧ bad.2 < 0))) ∨
       ((ns_paths k w (pre ++ (ns_value (p :: rest) ++ post)) pre.length).1
            = .exit 16 "failed to open %s" ∧ Tset = [] ∧
          ∃ good bad later fds badret, p :: rest = good ++ bad :: later ∧
            open_calls Topen = (good.map Path.bytes).zip fds ++ [(.bytes bad, badret)] ∧
            fds.length = good.length ∧ (∀ x ∈ fds, 0 ≤ x) ∧ badret < 0)) := by
  unfold ns_paths
  rw [strtok_r_first pre post p rest hp]
  dsimp only
  rw [strlen_at pre p _ (fun b hb => (hp.2 b hb).2)]
  dsimp only
  have hpl : ¬ p.length = 0 := by
    intro h
    exact hp.1 (List.length_eq_zero.mp h)
  rw [if_neg hpl]
  have hfuel : rest.length < (pre ++ (p ++ 0 :: ns_rest rest post)).length + 1 := by
    have := ns_rest_length rest post
    simp
    omega
  obtain ⟨To, hTo, hso, hwo, hko, hcase⟩ := ns_open_loop_shape k hre rest p pre post w []
    ((pre ++ (p ++ 0 :: ns_rest rest post)).length + 1) hp hrest hfuel
  generalize ns_open_loop k ((pre ++ (p ++ 0 :: ns_rest rest post)).length + 1) w
    (pre ++ (p ++ 0 :: ns_rest rest post)) pre.length (pre.length + p.length + ns_skip rest) []
    = res at hTo hcase ⊢
  obtain ⟨o, w2⟩ := res
  simp only at hTo hcase
  rcases hcase with ⟨m', new, fds, rfl, hopen, hlen, hnew, hpos⟩ |
    ⟨rfl, good, bad, later, fds, badret, hsplit, hopen, hlen, hpos, hbad⟩
  · dsimp only
    obtain ⟨Ts, hTs, hos, hws, hcs⟩ := ns_setns_loop_shape k ([] ++ new) w2
    generalize ns_setns_loop k w2 ([] ++ new) = res2 at hTs hcs ⊢
    obtain ⟨o2, w3⟩ := res2
    simp only at hTs hcs
    have hnew' : List.map Prod.fst ([] ++ new) = fds := by simpa using hnew
    rw [hnew'] at hcs
    rcases hcs with ⟨rfl, hmap, hp2⟩ | ⟨rfl, good, bad, hsplit, hmap, hgl, hgp, hbad⟩
    · refine ⟨To, Ts, ?_, hso, hwo, hos, hws, hko, Or.inl ⟨fds, hopen, hlen, hpos, Or.inl
        ⟨m', rfl, hmap, hp2⟩⟩⟩
      simp [hTs, hTo]
    · refine ⟨To, Ts, ?_, hso, hwo, hos, hws, hko, Or.inl ⟨fds, hopen, hlen, hpos, Or.inr
        ⟨rfl, good, bad, hsplit, hmap, ?_, hgp, hbad⟩⟩⟩
      · simp [hTs, hTo]
      · have : ([] ++ new).length = fds.length := by rw [← hnew']; simp
        rw [this, hlen] at hgl
        exact hgl
  · refine ⟨To, [], ?_, hso, hwo, rfl, rfl, hko, Or.inr ⟨rfl, rfl, good, bad, later, fds, badret,
      hsplit, hopen, hlen, hpos, hbad⟩⟩
    simp [hTo]

/-- C5. For a non-empty list of namespace paths that all open successfully, the
NS_PATHS_ATTR case opens them in the order given and then calls setns on their
descriptors in exactly that order; when a join fails it ends in the fatal exit
"failed to setns" (code 17) with exactly the joins up to and including the
failing one attempted, and none of the later ones. -/
theorem ns_joins_in_order (k : Kernel) (w : World) (pre post : List Nat)
    (ps : List (List Nat)) (hne : ps ≠ []) (hv : ∀ p ∈ ps, valid_path p)
    (hre : ∀ h n, (k h (.realloc n)).ret ≠ 0)
    (hop : ∀ h, ∀ p ∈ ps, 0 ≤ (k h (.open_ (.bytes p) O_RDONLY)).ret) :
    ∃ Topen Tset fds,
      (ns_paths k w (pre ++ (ns_value ps ++ post)) pre.length).2.trace
        = w.trace ++ (Topen ++ Tset) ∧
      open_calls Topen = (ps.map Path.bytes).zip fds ∧ fds.length = ps.length ∧
      setns_calls Topen = [] ∧ open_calls Tset = [] ∧
      ((∃ m', (ns_paths k w (pre ++ (ns_value ps ++ post)) pre.length).1 = .ok m' ∧
          (setns_calls Tset).map Prod.fst = fds ∧ ∀ x ∈ setns_calls Tset, 0 ≤ x.2) ∨
       ((ns_paths k w (pre ++ (ns_value ps ++ post)) pre.length).1
            = .exit 17 "failed to setns to %s" ∧
          ∃ good bad, setns_calls Tset = good ++ [bad] ∧
            (good ++ [bad]).map Prod.fst = fds.take (good.length + 1) ∧
            good.length < ps.length ∧ (∀ x ∈ good, 0 ≤ x.2) ∧ bad.2 < 0)) := by
  obtain ⟨p, rest, rfl⟩ := List.exists_cons_of_ne_nil hne
  obtain ⟨To, Ts, hT, hso, _, hos, _, hko, hcase⟩ := ns_paths_shape k hre p rest pre post w
    (hv p (List.mem_cons_self _ _)) (fun q hq => hv q (List.mem_cons_of_mem _ hq))
  rcases hcase with ⟨fds, hopen, hlen, _, hset⟩ |
    ⟨_, _, good, bad, later, fds, badret, hsplit, hopen, _, _, hbad⟩
  · exact ⟨To, Ts, fds, hT, hopen, by simpa using hlen, hso, hos, by simpa using hset⟩
  · exfalso
    have hmem : (Path.bytes bad, badret) ∈ open_calls To := by rw [hopen]; simp
    obtain ⟨h, hh⟩ := hko _ hmem
    have hin : bad ∈ p :: rest := by rw [hsplit]; simp
    have := hop h bad hin
    simp only at hh
    omega

/-- One iteration of the walk on a well-formed frame whose case of the switch
ends the process. -/
theorem nl_attr_frame_exit (k : Kernel) (w w' : World) (config : nlconfig_t)
    (pre post val : List Nat) (ty code : Nat) (msg : String)
    (hdata : config.data = pre ++ (frame ty val ++ post))
    (hty : ty < 65536) (hlen : 4 + val.length < 65536) (hpre : pre.length < 2 ^ 32)
    (hsw : nl_switch k { w with visited := w.visited ++ [⟨pre.length, 4 + val.length, ty⟩] }
      config ty val.length (pre.length + 4) = (.exit code msg, w')) :
    nl_attr k w config pre.length = (.exit code msg, w') := by
  have hL : load16 config.data pre.length = some (4 + val.length) := by
    have := load16_append pre (frame ty val ++ post) 0
    rw [Nat.add_zero] at this
    rw [hdata, this]
    simp [frame, le16, load16]
    omega
  have hT : load16 config.data (pre.length + 2) = some ty := by
    rw [hdata, load16_append]
    simp [frame, le16, load16]
    omega
  unfold nl_attr
  rw [hL, hT]
  dsimp only
  have e1 : (4 + val.length + SIZE_MOD - NLA_HDRLEN) % SIZE_MOD = val.length := by
    simp only [SIZE_MOD, NLA_HDRLEN]; omega
  have e2 : (pre.length + NLA_HDRLEN) % SIZE_MOD = pre.length + 4 := by
    simp only [SIZE_MOD, NLA_HDRLEN]; omega
  rw [e1, e2, hsw]

theorem nl_loop_exit (k : Kernel) (size fuel : Nat) (w w' : World) (config : nlconfig_t)
    (current code : Nat) (msg : String) (hlt : current < size)
    (h : nl_attr k w config current = (.exit code msg, w')) :
    nl_loop k size (fuel + 1) w config current = (.exit code msg, w') := by
  rw [nl_loop, if_pos hlt, h]

theorem nl_switch_ns_paths_exit (k : Kernel) (w w' : World) (config : nlconfig_t)
    (pl cur code : Nat) (msg : String)
    (h : ns_paths k w config.data cur = (.exit code msg, w')) :
    nl_switch k w config NS_PATHS_ATTR pl cur = (.exit code msg, w') := by
  unfold nl_switch
  rw [if_neg (by decide), if_neg (by decide), if_pos rfl, h]

theorem initpipe_trace (env : Option (List Nat)) (w : World) :
    (initpipe env w).2.trace = w.trace := by
  unfold initpipe
  cases env with
  | none => rfl
  | some v =>
    dsimp only
    split
    · rfl
    · split <;> (simp only [bail]; split <;> rfl)

/-- The walk over a clone-flags frame followed by an NS_PATHS frame of three
paths, the second of which cannot be opened. -/
theorem nl_loop_missing_path (k : Kernel) (c : Nat) (p1 p2 p3 : List Nat)
    (hc : c < 2 ^ 32) (hv1 : valid_path p1) (hv2 : valid_path p2) (hv3 : valid_path p3)
    (hsz : 4 + (ns_value [p1, p2, p3]).length < 65536)
    (hre : ∀ h n, (k h (.realloc n)).ret ≠ 0)
    (h1 : ∀ h, 0 ≤ (k h (.open_ (.bytes p1) O_RDONLY)).ret)
    (h2 : ∀ h, (k h (.open_ (.bytes p2) O_RDONLY)).ret < 0)
    (w : World) (config : nlconfig_t) (fuel : Nat) (hfuel : 2 ≤ fuel)
    (hdata : config.data
      = frame CLONE_FLAGS_ATTR (le32 c) ++ frame NS_PATHS_ATTR (ns_value [p1, p2, p3])) :
    ∃ w' T fd1 r2,
      nl_loop k (frame CLONE_FLAGS_ATTR (le32 c)
          ++ frame NS_PATHS_ATTR (ns_value [p1, p2, p3])).length fuel w config 0
        = (.exit 16 "failed to open %s", w') ∧
      w'.trace = w.trace ++ T ∧
      open_calls T = [(.bytes p1, fd1), (.bytes p2, r2)] ∧ 0 ≤ fd1 ∧ r2 < 0 ∧
      setns_calls T = [] ∧ write_calls T = [] := by
  obtain ⟨f, rfl⟩ : ∃ f, fuel = f + 1 + 1 := ⟨fuel - 2, by omega⟩
  have hl1 := frame_length CLONE_FLAGS_ATTR (le32 c)
  have hl2 := frame_length NS_PATHS_ATTR (ns_value [p1, p2, p3])
  have hle : (le32 c).length = 4 := rfl
  -- frame 1: clone flags
  have key1 : ∀ (W : World) (C : nlconfig_t),
      C.data = frame CLONE_FLAGS_ATTR (le32 c) ++ frame NS_PATHS_ATTR (ns_value [p1, p2, p3]) →
      ∃ W' C', nl_attr k W C 0 = (.ok (C', (frame CLONE_FLAGS_ATTR (le32 c)).length), W') ∧
        C'.data = frame CLONE_FLAGS_ATTR (le32 c) ++ frame NS_PATHS_ATTR (ns_value [p1, p2, p3]) ∧
        W'.trace = W.trace := by
    intro W C hC
    have a := nl_attr_frame_ok k W _ C _ [] (frame NS_PATHS_ATTR (ns_value [p1, p2, p3]))
      (le32 c) CLONE_FLAGS_ATTR (by rw [hC]; simp) (by decide) (by rw [hle]; decide) (by decide)
      (nl_switch_clone_flags k _ C _ _ c (by
        rw [hC]
        have := readint32_frame [] (frame NS_PATHS_ATTR (ns_value [p1, p2, p3]))
          CLONE_FLAGS_ATTR c hc
        simpa using this))
    simp only [List.length_nil, Nat.zero_add] at a
    exact ⟨_, _, a, hC, rfl⟩
  -- frame 2: the namespace paths
  have key2 : ∀ (W : World) (C : nlconfig_t),
      C.data = frame CLONE_FLAGS_ATTR (le32 c) ++ frame NS_PATHS_ATTR (ns_value [p1, p2, p3]) →
      ∃ W' T fd1 r2, nl_attr k W C (frame CLONE_FLAGS_ATTR (le32 c)).length
          = (.exit 16 "failed to open %s", W') ∧
        W'.trace = W.trace ++ T ∧
        open_calls T = [(.bytes p1, fd1), (.bytes p2, r2)] ∧ 0 ≤ fd1 ∧ r2 < 0 ∧
        setns_calls T = [] ∧ write_calls T = [] := by
    intro W C hC
    have hmem : C.data = (frame CLONE_FLAGS_ATTR (le32 c)
        ++ (le16 (4 + (ns_value [p1, p2, p3]).length) ++ le16 NS_PATHS_ATTR))
        ++ (ns_value (p1 :: [p2, p3]) ++ pad4 (ns_value [p1, p2, p3]).length) := by
      rw [hC]; simp [frame]
    have hcur : (frame CLONE_FLAGS_ATTR (le32 c)).length + 4
        = (frame CLONE_FLAGS_ATTR (le32 c)
          ++ (le16 (4 + (ns_value [p1, p2, p3]).length) ++ le16 NS_PATHS_ATTR)).length := by
      simp [le16]
    obtain ⟨To, Ts, hT, hso, hwo, hos, hws, hko, hcase⟩ := ns_paths_shape k hre p1 [p2, p3]
      (frame CLONE_FLAGS_ATTR (le32 c)
        ++ (le16 (4 + (ns_value [p1, p2, p3]).length) ++ le16 NS_PATHS_ATTR))
      (pad4 (ns_value [p1, p2, p3]).length)
      { W with visited := W.visited ++ [⟨(frame CLONE_FLAGS_ATTR (le32 c)).length,
          4 + (ns_value [p1, p2, p3]).length, NS_PATHS_ATTR⟩] }
      hv1 (by intro q hq; simp at hq; rcases hq with rfl | rfl; exact hv2; exact hv3)
    rw [← hmem, ← hcur] at hT hcase
    rcases hcase with ⟨fds, hopen, _, hpos, _⟩ |
      ⟨hex, hTs, good, bad, later, fds, badret, hsplit, hopen, hlen, hpos, hbad⟩
    · exfalso
      obtain ⟨a, b, c', rfl⟩ : ∃ a b c', fds = [a, b, c'] := by
        match fds, ‹fds.length = [p2, p3].length + 1› with
        | [a, b, c'], _ => exact ⟨a, b, c', rfl⟩
      have hm : (Path.bytes p2, b) ∈ open_calls To := by rw [hopen]; simp
      obtain ⟨h, hh⟩ := hko _ hm
      have hb := hpos b (by simp)
      have := h2 h
      simp only at hh
      omega
    · -- the open that failed is the one of p2
      have hshape : [p1] = good ∧ p2 = bad := by
        rcases good with _ | ⟨g1, _ | ⟨g2, good⟩⟩
        · exfalso
          simp at hsplit
          obtain ⟨rfl, _⟩ := hsplit
          have hm : (Path.bytes p1, badret) ∈ open_calls To := by rw [hopen]; simp
          obtain ⟨h, hh⟩ := hko _ hm
          have := h1 h
          simp only at hh
          omega
        · simp at hsplit
          exact ⟨by rw [hsplit.1], hsplit.2.1⟩
        · exfalso
          simp at hsplit
          obtain ⟨rfl, rfl, _⟩ := hsplit
          obtain ⟨a, b, fds', rfl⟩ : ∃ a b fds', fds = a :: b :: fds' := by
            match fds, hlen with
            | a :: b :: fds', _ => exact ⟨a, b, fds', rfl⟩
          have hm : (Path.bytes p2, b) ∈ open_calls To := by rw [hopen]; simp
          obtain ⟨h, hh⟩ := hko _ hm
          have hb := hpos b (by simp)
          have := h2 h
          simp only at hh
          omega
      obtain ⟨rfl, rfl⟩ := hshape
      obtain ⟨fd1, rfl⟩ : ∃ fd1, fds = [fd1] := by
        match fds, hlen with
        | [a], _ => exact ⟨a, rfl⟩
      generalize hres : ns_paths k
        { W with visited := W.visited ++ [⟨(frame CLONE_FLAGS_ATTR (le32 c)).length,
          4 + (ns_value [p1, p2, p3]).length, NS_PATHS_ATTR⟩] } C.data
        ((frame CLONE_FLAGS_ATTR (le32 c)).length + 4) = res at hT hex
      obtain ⟨o, W'⟩ := res
      simp only at hT hex
      subst hex
      have a := nl_attr_frame_exit k W W' C (frame CLONE_FLAGS_ATTR (le32 c)) []
        (ns_value [p1, p2, p3]) NS_PATHS_ATTR 16 "failed to open %s"
        (by rw [hC]; simp) (by decide) hsz (by rw [hl1, hle]; decide)
        (nl_switch_ns_paths_exit k _ W' C _ _ 16 _ hres)
      refine ⟨W', To ++ Ts, fd1, badret, a, hT, ?_, hpos fd1 (by simp), hbad, ?_, ?_⟩
      · rw [open_calls_append, hos, hopen]; simp
      · rw [setns_calls_append, hso, hTs]; simp [setns_calls]
      · rw [write_calls_append, hwo, hws]; simp
  obtain ⟨W1, C1, a1, hC1, hW1⟩ := key1 w config hdata
  obtain ⟨W2, T, fd1, r2, a2, hT, hrest⟩ := key2 W1 C1 hC1
  refine ⟨W2, T, fd1, r2, ?_, by rw [hT, hW1], hrest⟩
  rw [nl_loop_step k _ _ _ _ _ _ _ _ (by rw [List.length_append, hl1]; omega) a1]
  exact nl_loop_exit k _ _ _ _ _ _ _ _ (by rw [List.length_append, hl1, hl2]; omega) a2

/-- C6, as amended. With three namespace paths of which the first and third can
be opened and the second cannot, the bootstrap ends in the fatal exit "failed to
open" (code 16, non-zero) at the open of the second path: the first path has
been opened but not joined, no setns is attempted at all, the third path is not
opened, and nothing is written, so no sync byte either. -/
theorem missing_ns_path_fails_at_open (fuel : Nat) (k : Kernel) (w w0 : World)
    (env : Option (List Nat)) (pipenum : Int) (c flags seq pid : Nat) (p1 p2 p3 : List Nat)
    (hinit : initpipe env w = (.ok pipenum, w0)) (hpn : pipenum ≠ -1)
    (hc : c < 2 ^ 32) (hv1 : valid_path p1) (hv2 : valid_path p2) (hv3 : valid_path p3)
    (hb : ∀ b ∈ ns_value [p1, p2, p3], b < 256)
    (hsz : 4 + (ns_value [p1, p2, p3]).length < 65536)
    (hk : Delivers k w0 pipenum
      (nlmsg_hdr INIT_MSG flags seq pid
        (frame CLONE_FLAGS_ATTR (le32 c) ++ frame NS_PATHS_ATTR (ns_value [p1, p2, p3])))
      (frame CLONE_FLAGS_ATTR (le32 c) ++ frame NS_PATHS_ATTR (ns_value [p1, p2, p3])))
    (hre : ∀ h n, (k h (.realloc n)).ret ≠ 0)
    (h1 : ∀ h, 0 ≤ (k h (.open_ (.bytes p1) O_RDONLY)).ret)
    (_h3 : ∀ h, 0 ≤ (k h (.open_ (.bytes p3) O_RDONLY)).ret)
    (h2 : ∀ h, (k h (.open_ (.bytes p2) O_RDONLY)).ret < 0)
    (hfuel : 2 ≤ fuel) :
    (nsexec fuel k w env).1 = .exit 16 "failed to open %s" ∧
    ∃ fd1 r2,
      open_calls ((nsexec fuel k w env).2.trace.drop w.trace.length)
        = [(.bytes p1, fd1), (.bytes p2, r2)] ∧ 0 ≤ fd1 ∧ r2 < 0 ∧
      setns_calls ((nsexec fuel k w env).2.trace.drop w.trace.length) = [] ∧
      write_calls ((nsexec fuel k w env).2.trace.drop w.trace.length) = [] := by
  have hbytes : ∀ b ∈ frame CLONE_FLAGS_ATTR (le32 c)
      ++ frame NS_PATHS_ATTR (ns_value [p1, p2, p3]), b < 256 := by
    intro b hb'
    simp only [List.mem_append] at hb'
    rcases hb' with hb' | hb'
    · refine frame_bytes _ _ ?_ b hb'
      intro x hx
      simp only [le32, List.mem_cons, List.mem_singleton, List.not_mem_nil, or_false] at hx
      omega
    · exact frame_bytes _ _ hb b hb'
  have hlen : NLMSG_HDRLEN + (frame CLONE_FLAGS_ATTR (le32 c)
      ++ frame NS_PATHS_ATTR (ns_value [p1, p2, p3])).length < 2 ^ 32 := by
    have h1 := frame_length CLONE_FLAGS_ATTR (le32 c)
    have h2 := frame_length NS_PATHS_ATTR (ns_value [p1, p2, p3])
    have hle : (le32 c).length = 4 := rfl
    simp only [List.length_append, NLMSG_HDRLEN]
    rw [h1, h2, hle]
    omega
  have hw0 : w0.trace = w.trace := by
    have := initpipe_trace env w
    rw [hinit] at this
    exact this
  unfold nsexec
  rw [hinit]
  dsimp only
  rw [if_neg hpn, nl_parse_delivered fuel k w0 pipenum nlconfig_zero flags seq pid _ hbytes hlen hk]
  obtain ⟨w', T, fd1, r2, hloop, hT, hopen, hfd, hr2, hset, hwr⟩ :=
    nl_loop_missing_path k c p1 p2 p3 hc hv1 hv2 hv3 hsz hre h1 h2
      (sys k (sys k (sys k w0 (.read pipenum NLMSG_HDRLEN)).2
        (.malloc (frame CLONE_FLAGS_ATTR (le32 c)
          ++ frame NS_PATHS_ATTR (ns_value [p1, p2, p3])).length)).2
        (.read pipenum (frame CLONE_FLAGS_ATTR (le32 c)
          ++ frame NS_PATHS_ATTR (ns_value [p1, p2, p3])).length)).2
      { nlconfig_zero with
        data := frame CLONE_FLAGS_ATTR (le32 c) ++ frame NS_PATHS_ATTR (ns_value [p1, p2, p3]),
        consolefd := -1 } fuel hfuel rfl
  rw [hloop]
  dsimp only
  refine ⟨rfl, fd1, r2, ?_, hfd, hr2, ?_, ?_⟩
  · rw [hT]
    simp only [sys_trace, hw0, List.append_assoc, List.drop_left]
    simp [open_calls, hopen]
  · rw [hT]
    simp only [sys_trace, hw0, List.append_assoc, List.drop_left]
    simp [setns_calls, hset]
  · rw [hT]
    simp only [sys_trace, hw0, List.append_assoc, List.drop_left]
    simp [write_calls, hwr]

theorem nl_parse_roundtrip_witness :
    ∃ cfg, (nl_parse 4 (demoKernel demo_msg [] []) world0 5 nlconfig_zero).1 = .ok cfg ∧
      cfg.cloneflags = 0x10000000 ∧
      cfg.uidmap_len = demo_uid.length ∧
      (∃ p, cfg.uidmap = some p ∧ (cfg.data.drop p).take demo_uid.length = demo_uid) ∧
      cfg.gidmap_len = demo_gid.length ∧
      (∃ p, cfg.gidmap = some p ∧ (cfg.data.drop p).take demo_gid.length = demo_gid) ∧
      cfg.is_setgroup = 1 :=
  nl_parse_roundtrip 4 (demoKernel demo_msg [] []) world0 5 nlconfig_zero 0x10000000 1 0 0 0
    demo_uid demo_gid (by decide) (by decide) (by decide) (by decide) (by decide) (by decide)
    (by unfold Delivers; decide) (by decide)

/-- C2 fails on the code: a message without a clone-flags attribute is not
rejected. The record keeps the zero of its initialisation, which the test
against -1 lets through, and the bootstrap goes on to create the sync pipe and
the child and exits with 0; a message that does carry the flags 0xFFFFFFFF is
the one that ends in "missing clone_flags". -/
theorem missing_clone_flags_accepted :
    (nsexec 4 (demoKernel demo_msg_no_flags [] []) world0 demo_env).1 = .exit 0 "" ∧
    (nsexec 4 (demoKernel demo_msg_no_flags [] []) world0 demo_env).2.trace.map Event.call
      = [.read 5 16, .malloc 8, .read 5 8, .pipe, .clone (CLONE_PARENT ||| SIGCHLD ||| 0),
         .close 6, .write 7 [SYNC_VAL], .write 5 (pid_report 1000)] ∧
    (nsexec 4 (demoKernel demo_msg_all_flags [] []) world0 demo_env).1
      = .exit 19 "missing clone_flags" := by
  decide

theorem nl_attr_cursor_advance_witness :
    nl_attr (demoKernel [] [] []) world0 demo_frame_config 0
      = (.ok (({ demo_frame_config with is_setgroup := 1 } : nlconfig_t), 8),
         ({ world0 with visited := [⟨0, 5, SETGROUP_ATTR⟩] } : World)) ∧
    (5 < 65536 ∧ 8 = (0 + ((5 + 3) &&& (SIZE_MOD - 4))) % SIZE_MOD ∧
      (1 ≤ 5 → 0 < UINT_MOD → 0 < 8)) ∧
    (nl_parse (2 ^ 30) (demoKernel demo_msg [] []) world0 5 nlconfig_zero).1 ≠ .outOfFuel :=
  ⟨by decide,
   nl_attr_cursor_advance.2.1 (demoKernel [] [] []) world0
     { world0 with visited := [⟨0, 5, SETGROUP_ATTR⟩] } demo_frame_config
     { demo_frame_config with is_setgroup := 1 } 0 5 8 (by decide) (by decide),
   nl_attr_cursor_advance.2.2 (2 ^ 30) (demoKernel demo_msg [] []) world0 5 nlconfig_zero
     (by decide) (by decide)⟩

theorem unknown_attr_rejected_witness :
    (nl_parse 4 (demoKernel demo_msg_unknown [] []) world0 5 nlconfig_zero).1
      = .exit 18 "unknown netlink message type %d" :=
  (unknown_attr_rejected 4 (demoKernel demo_msg_unknown [] []) world0 5 nlconfig_zero).2.2.1
    ⟨0, 4, 27287⟩ (by decide) (by decide)

theorem demo_valid (p : List Nat) (h : p ∈ [demo_p1, demo_p2, demo_p3]) : valid_path p := by
  simp only [List.mem_cons, List.mem_singleton, List.not_mem_nil, or_false] at h
  rcases h with rfl | rfl | rfl <;> exact ⟨by decide, by decide⟩

theorem ns_joins_in_order_witness :
    ∃ Topen Tset fds,
      (ns_paths (demoKernel [] [] [8]) world0
          ([] ++ (ns_value [demo_p1, demo_p2, demo_p3] ++ [])) ([] : List Nat).length).2.trace
        = world0.trace ++ (Topen ++ Tset) ∧
      open_calls Topen = ([demo_p1, demo_p2, demo_p3].map Path.bytes).zip fds ∧
      fds.length = [demo_p1, demo_p2, demo_p3].length ∧
      setns_calls Topen = [] ∧ open_calls Tset = [] ∧
      ((∃ m', (ns_paths (demoKernel [] [] [8]) world0
            ([] ++ (ns_value [demo_p1, demo_p2, demo_p3] ++ [])) ([] : List Nat).length).1
              = .ok m' ∧
          (setns_calls Tset).map Prod.fst = fds ∧ ∀ x ∈ setns_calls Tset, 0 ≤ x.2) ∨
       ((ns_paths (demoKernel [] [] [8]) world0
            ([] ++ (ns_value [demo_p1, demo_p2, demo_p3] ++ [])) ([] : List Nat).length).1
            = .exit 17 "failed to setns to %s" ∧
          ∃ good bad, setns_calls Tset = good ++ [bad] ∧
            (good ++ [bad]).map Prod.fst = fds.take (good.length + 1) ∧
            good.length < [demo_p1, demo_p2, demo_p3].length ∧ (∀ x ∈ good, 0 ≤ x.2) ∧
            bad.2 < 0)) :=
  ns_joins_in_order (demoKernel [] [] [8]) world0 [] [] [demo_p1, demo_p2, demo_p3]
    (by decide) demo_valid (fun _ _ => by simp [demoKernel])
    (fun h p _ => by simp [demoKernel]; omega)

theorem missing_ns_path_fails_at_open_witness :
    (nsexec 2 (demoKernel demo_msg_paths [.bytes demo_p2] []) world0 demo_env).1
      = .exit 16 "failed to open %s" :=
  (missing_ns_path_fails_at_open 2 (demoKernel demo_msg_paths [.bytes demo_p2] []) world0 world0
    demo_env 5 0x10000000 0 0 0 demo_p1 demo_p2 demo_p3 (by decide) (by decide) (by decide)
    (demo_valid _ (by decide)) (demo_valid _ (by decide)) (demo_valid _ (by decide))
    (by decide) (by decide) (by unfold Delivers; decide)
    (fun _ _ => by simp [demoKernel])
    (fun h => by simp [demoKernel, demo_p1, demo_p2]; omega)
    (fun h => by simp [demoKernel, demo_p3, demo_p2]; omega)
    (fun h => by simp [demoKernel])
    (by decide)).1

/-- C6 as stated fails: with "/a" and "/c" present and "/b" missing, the
bootstrap ends in exit 16 at the open of "/b". No setns has been made, so the
join of "/a" has not succeeded: "/a" was opened (descriptor 8) and never joined. -/
theorem missing_ns_path_no_join :
    (nsexec 2 (demoKernel demo_msg_paths [.bytes demo_p2] []) world0 demo_env).1
      = .exit 16 "failed to open %s" ∧
    open_calls (nsexec 2 (demoKernel demo_msg_paths [.bytes demo_p2] []) world0 demo_env).2.trace
      = [(.bytes demo_p1, 8), (.bytes demo_p2, -1)] ∧
    ¬ ∃ x ∈ setns_calls
        (nsexec 2 (demoKernel demo_msg_paths [.bytes demo_p2] []) world0 demo_env).2.trace,
      x.1 = 8 ∧ 0 ≤ x.2 := by
  decide

end Nsexec
